import Mathlib

/-!
Shallow embedding of the ADCIRC file-reading core of the xmstool_runner
repository (the `fort.13` nodal-attribute reader, the `fort.14` mesh reader,
and the `fort.63`-family solution readers), together with theorems settling
the frozen claims about it.

Modelling conventions:
* Python floats are modelled as rationals (`ℚ`); the floating NaN value,
  which occurs only as an intermediate in the NetCDF null handling, is
  modelled by a dedicated constructor of `NCVal`.
* A text line is modelled as the list of its whitespace/comma tokens, after
  the lexing stage that the source performs with `str.split`.  For files
  whose tokens are all numeric the token type is `ℚ`; for the fort.13,
  whose name lines carry words, the token type is `Tok`.
* Python `int(tok)` succeeds exactly on integer tokens; this is modelled by
  `pyInt` (defined on `ℚ`, succeeding when the denominator is 1).
* Python list assignment `l[i] = v` admits negative (wrap-around) indices
  and raises `IndexError` out of range; this is `pySet`.
* Python `dict` preserves first-insertion order and overwrites in place;
  this is `pyDictSet`/`pyDictGet?` on association lists.
* A raised exception that escapes the code under consideration is an
  `Option.none` / `Except.error` result.
-/

namespace XmsAdcirc

/-- The ADCIRC null sentinel (-99999.0) used to mean "no data". -/
def ADCIRC_NULL_VALUE : ℚ := -99999

/-- Python `int(token)` on a numeric token: succeeds exactly when the token
is an integer. -/
def pyInt (q : ℚ) : Option ℤ :=
  if q.den = 1 then some q.num else none

/-- Python list assignment `l[i] = v` with an integer index: non-negative
indices in range assign directly, negative indices wrap around from the end,
anything else raises `IndexError` (modelled as `none`). -/
def pySet {α : Type} (l : List α) (i : ℤ) (v : α) : Option (List α) :=
  if 0 ≤ i ∧ i < (l.length : ℤ) then some (l.set i.toNat v)
  else if -(l.length : ℤ) ≤ i ∧ i < 0 then some (l.set (i + l.length).toNat v)
  else none

/-- Python `dict` assignment on an association list: overwriting an existing
key keeps its original position (insertion order preserved), a new key is
appended at the end. -/
def pyDictSet {κ α : Type} [DecidableEq κ] (k : κ) (v : α) :
    List (κ × α) → List (κ × α)
  | [] => [(k, v)]
  | (k', v') :: rest =>
    if k' = k then (k, v) :: rest else (k', v') :: pyDictSet k v rest

/-- Python `dict` lookup on an association list. -/
def pyDictGet? {κ α : Type} [DecidableEq κ] (k : κ) (m : List (κ × α)) :
    Option α :=
  (m.find? (fun p => p.1 = k)).map (·.2)

/-! ## NetCDF value handling (`fort63_reader.py`, `solution_importer.py`)

A NetCDF array element is either an ordinary float or NaN. -/

/-- A NetCDF array element: an ordinary float value or NaN. -/
inductive NCVal : Type where
  | nan : NCVal
  | val : ℚ → NCVal
deriving DecidableEq, Repr

/-- `scalar_data[scalar_data == ADCIRC_NULL_VALUE] = np.nan`, elementwise.
NaN compares unequal to everything, so a NaN element is left alone. -/
def nullToNan (v : NCVal) : NCVal :=
  match v with
  | .nan => .nan
  | .val q => if q = ADCIRC_NULL_VALUE then .nan else .val q

/-- `scalar_data[np.isnan(scalar_data)] = ADCIRC_NULL_VALUE`, elementwise. -/
def nanToNull (v : NCVal) : NCVal :=
  match v with
  | .nan => .val ADCIRC_NULL_VALUE
  | .val q => .val q

/-- Value transformation performed by `Fort63Reader._read_netcdf_scalars` and
`ADCIRCSolutionReader.read_netcdf_scalars`: replace the null sentinel with
NaN, then convert NaNs back to the sentinel.  The empty-variable guard of
`read_netcdf_scalars` (warn and produce no dataset) is the `none` case. -/
def readNetcdfScalars (data : List NCVal) : Option (List NCVal) :=
  if data = [] then none
  else some ((data.map nullToNan).map nanToNull)

/-- Value transformation performed by `ADCIRCSolutionReader.read_netcdf_vectors`:
both components go through the sentinel→NaN replacement, are stacked, and the
stacked cube goes through the NaN→sentinel replacement. -/
def readNetcdfVectors (xData yData : List NCVal) : Option (List (NCVal × NCVal)) :=
  if xData = [] then none
  else
    some (((xData.map nullToNan).zip (yData.map nullToNan)).map
      (fun p => (nanToNull p.1, nanToNull p.2)))

/-- Python truthiness of a float: `0.0` is falsy, every other float value and
NaN are truthy. -/
def pyTruthy (v : NCVal) : Bool :=
  match v with
  | .nan => true
  | .val q => q != 0

/-- `float(x) if x else ADCIRC_NULL_VALUE` from
`ADCIRCSolutionReader.read_netcdf_max_scalars`: a truthy element passes
through `float` unchanged, a falsy element becomes the null sentinel. -/
def maxScalarElem (v : NCVal) : NCVal :=
  if pyTruthy v then v else .val ADCIRC_NULL_VALUE

/-- Value transformation performed by
`ADCIRCSolutionReader.read_netcdf_max_scalars` on the extreme-value variable
and the time-of-extreme variable (the two output datasets).  The empty-
variable guard is checked on the extreme variable only. -/
def readNetcdfMaxScalars (extreme timeData : List NCVal) :
    Option (List NCVal × List NCVal) :=
  if extreme = [] then none
  else some (extreme.map maxScalarElem, timeData.map maxScalarElem)

/-! ## ASCII solution readers (`solution_importer.py`) -/

/-- A tokenized line of an ASCII solution file; `[]` is a blank line (or the
empty string returned by `readline` at end of file). -/
abbrev QLine := List ℚ

/-- Inner loop of `ADCIRCSolutionReader.read_ascii_scalars`: read `n` more
value lines for the current timestep into `vals` (`j` is the running loop
index used in the dense case).  Returns the updated values together with the
remaining lines, `(none, rest)` when the timestep must be dropped because a
value line was missing or blank (`add_timestep = False`), and `none` when a
decode error escapes as an exception. -/
def readTsValuesScalar (sparse : Bool) :
    ℕ → ℕ → List ℚ → List QLine → Option (Option (List ℚ) × List QLine)
  | _, 0, vals, lines => some (some vals, lines)
  | _, _ + 1, _, [] => some (none, [])
  | j, n + 1, vals, line :: rest =>
    if line = [] then some (none, rest)
    else if sparse then
      match line.get? 0, line.get? 1 with
      | some t0, some t1 =>
        match pyInt t0 with
        | some nodeId =>
          match pySet vals (nodeId - 1) t1 with
          | some vals2 => readTsValuesScalar sparse (j + 1) n vals2 rest
          | none => none
        | none => none
      | _, _ => none
    else
      match line.get? 1 with
      | some t1 =>
        match pySet vals (j : ℤ) t1 with
        | some vals2 => readTsValuesScalar sparse (j + 1) n vals2 rest
        | none => none
      | none => none

/-- Outer timestep loop of `ADCIRCSolutionReader.read_ascii_scalars`.  Each
iteration reads the timestep header line; a line with more than 3 tokens is a
sparse record carrying the explicit value count (token 2) and the default
value (token 3).  Kept timesteps are accumulated in `acc`. -/
def readAsciiScalarsLoop (numNodes : ℤ) :
    ℕ → List QLine → List (ℚ × List ℚ) → Option (List (ℚ × List ℚ))
  | 0, _, acc => some acc
  | _ + 1, [], acc => some acc
  | n + 1, tsLine :: rest, acc =>
    if tsLine = [] then some acc
    else
      let tsTime := tsLine.headD 0
      if 3 < tsLine.length then
        match tsLine.get? 2, tsLine.get? 3 with
        | some t2, some t3 =>
          match pyInt t2 with
          | some numVals =>
            match readTsValuesScalar true 0 numVals.toNat
                (List.replicate numNodes.toNat t3) rest with
            | some (some vals, rest2) =>
              readAsciiScalarsLoop numNodes n rest2 (acc ++ [(tsTime, vals)])
            | some (none, rest2) => readAsciiScalarsLoop numNodes n rest2 acc
            | none => none
          | none => none
        | _, _ => none
      else
        match readTsValuesScalar false 0 numNodes.toNat
            (List.replicate numNodes.toNat 0) rest with
        | some (some vals, rest2) =>
          readAsciiScalarsLoop numNodes n rest2 (acc ++ [(tsTime, vals)])
        | some (none, rest2) => readAsciiScalarsLoop numNodes n rest2 acc
        | none => none

/-- `ADCIRCSolutionReader.read_ascii_scalars` on a whole file: skip the
description line, parse `timestep_count` and `node_count` from the second
header line (`read_header`), then run the timestep loop.  The result is the
list of kept `(time, values)` timesteps; `none` is an escaped exception, in
which case no dataset is produced. -/
def readAsciiScalars (lines : List QLine) : Option (List (ℚ × List ℚ)) :=
  match lines with
  | _ :: timeLine :: rest =>
    match timeLine.get? 0, timeLine.get? 1 with
    | some t0, some t1 =>
      match pyInt t0, pyInt t1 with
      | some numTs, some numNodes =>
        readAsciiScalarsLoop numNodes numTs.toNat rest []
      | _, _ => none
    | _, _ => none
  | _ => none

/-- Inner loop of `ADCIRCSolutionReader.read_ascii_vectors`: like the scalar
case but each node carries an `(x, y)` pair read from tokens 1 and 2. -/
def readTsValuesVector (sparse : Bool) :
    ℕ → ℕ → List (ℚ × ℚ) → List QLine →
    Option (Option (List (ℚ × ℚ)) × List QLine)
  | _, 0, vals, lines => some (some vals, lines)
  | _, _ + 1, _, [] => some (none, [])
  | j, n + 1, vals, line :: rest =>
    if line = [] then some (none, rest)
    else if sparse then
      match line.get? 0, line.get? 1, line.get? 2 with
      | some t0, some t1, some t2 =>
        match pyInt t0 with
        | some nodeId =>
          match pySet vals (nodeId - 1) (t1, t2) with
          | some vals2 => readTsValuesVector sparse (j + 1) n vals2 rest
          | none => none
        | none => none
      | _, _, _ => none
    else
      match line.get? 1, line.get? 2 with
      | some t1, some t2 =>
        match pySet vals (j : ℤ) (t1, t2) with
        | some vals2 => readTsValuesVector sparse (j + 1) n vals2 rest
        | none => none
      | _, _ => none

/-- Outer timestep loop of `ADCIRCSolutionReader.read_ascii_vectors`.  Note
the sparse test here is `len(ts_line) > 2` and the two component defaults are
tokens 3 and 4. -/
def readAsciiVectorsLoop (numNodes : ℤ) :
    ℕ → List QLine → List (ℚ × List (ℚ × ℚ)) →
    Option (List (ℚ × List (ℚ × ℚ)))
  | 0, _, acc => some acc
  | _ + 1, [], acc => some acc
  | n + 1, tsLine :: rest, acc =>
    if tsLine = [] then some acc
    else
      let tsTime := tsLine.headD 0
      if 2 < tsLine.length then
        match tsLine.get? 2, tsLine.get? 3, tsLine.get? 4 with
        | some t2, some t3, some t4 =>
          match pyInt t2 with
          | some numVals =>
            match readTsValuesVector true 0 numVals.toNat
                (List.replicate numNodes.toNat (t3, t4)) rest with
            | some (some vals, rest2) =>
              readAsciiVectorsLoop numNodes n rest2 (acc ++ [(tsTime, vals)])
            | some (none, rest2) => readAsciiVectorsLoop numNodes n rest2 acc
            | none => none
          | none => none
        | _, _, _ => none
      else
        match readTsValuesVector false 0 numNodes.toNat
            (List.replicate numNodes.toNat (0, 0)) rest with
        | some (some vals, rest2) =>
          readAsciiVectorsLoop numNodes n rest2 (acc ++ [(tsTime, vals)])
        | some (none, rest2) => readAsciiVectorsLoop numNodes n rest2 acc
        | none => none

/-- `ADCIRCSolutionReader.read_ascii_vectors` on a whole file. -/
def readAsciiVectors (lines : List QLine) : Option (List (ℚ × List (ℚ × ℚ))) :=
  match lines with
  | _ :: timeLine :: rest =>
    match timeLine.get? 0, timeLine.get? 1 with
    | some t0, some t1 =>
      match pyInt t0, pyInt t1 with
      | some numTs, some numNodes =>
        readAsciiVectorsLoop numNodes numTs.toNat rest []
      | _, _ => none
    | _, _ => none
  | _ => none

/-! ## Batch solution read (`ADCIRCSolutionReader.add_mesh_datasets` / `read`) -/

/-- Outcome of the filename/content dispatch (`get_reader` falling back to
`_determine_reader_from_file_properties`) for one file in the batch:
either some reader was selected or the format was unrecognized. -/
inductive SolFormat : Type where
  | recognizedScalar : SolFormat
  | unrecognized : SolFormat
deriving DecidableEq, Repr

/-- One file handed to the batch solution reader: whether `os.path.isfile`
holds, whether its basename is one of the recording-station names filtered
out before dispatch, the dispatch outcome, and (for a recognized ASCII scalar
file) its tokenized content. -/
structure SolFile : Type where
  onDisk : Bool
  isStation : Bool
  format : SolFormat
  content : List QLine
deriving DecidableEq, Repr

/-- Number of datasets produced by running the selected reader on one file:
`read_ascii_scalars` adds its dataset exactly when it kept at least one
timestep and no exception escaped. -/
def runReaderDatasets (f : SolFile) : ℕ :=
  match readAsciiScalars f.content with
  | some kept => if kept.isEmpty then 0 else 1
  | none => 0

/-- One iteration of the loop in `ADCIRCSolutionReader.add_mesh_datasets`:
state is `(read_data, datasets produced so far)`.  Missing files and
recording-station files are skipped; if a reader was selected it is run and
`read_data` is set to `True` (whether or not it produced anything); an
unrecognized format is logged and skipped. -/
def addMeshDatasetsStep (st : Bool × ℕ) (f : SolFile) : Bool × ℕ :=
  if !f.onDisk then st
  else if f.isStation then st
  else
    match f.format with
    | .recognizedScalar => (true, st.2 + runReaderDatasets f)
    | .unrecognized => st

/-- `ADCIRCSolutionReader.add_mesh_datasets` over the batch. -/
def addMeshDatasets (files : List SolFile) : Bool × ℕ :=
  files.foldl addMeshDatasetsStep (false, 0)

/-- `ADCIRCSolutionReader.read`: after the batch loop, the hard error
("No ADCIRC solution files found") is reported exactly when `read_data`
was never set. -/
def solutionReadHardError (files : List SolFile) : Bool :=
  !(addMeshDatasets files).1

/-- A file is dispatched to a reader exactly when it exists on disk, is not a
recording-station file, and its format is recognized. -/
def dispatched (f : SolFile) : Bool :=
  f.onDisk && !f.isStation && decide (f.format = SolFormat.recognizedScalar)

/-! ## fort.13 nodal-attribute reader (`xms/adcirc/fort13_reader.py`) -/

/-- A token of a fort.13 line: a word (attribute name, units) or a number. -/
inductive Tok : Type where
  | word : String → Tok
  | num : ℚ → Tok
deriving DecidableEq, Repr

/-- Python `float(token)`: succeeds on numeric tokens. -/
def tokFloat? : Tok → Option ℚ
  | .word _ => none
  | .num q => some q

/-- Python `int(token)`: succeeds on integer tokens. -/
def tokInt? : Tok → Option ℤ
  | .word _ => none
  | .num q => pyInt q

/-- The string form of a token (tokens are strings in the source; numeric
conversion happens at the use site). -/
def tokStr : Tok → String
  | .word s => s
  | .num q => toString q

/-- A tokenized fort.13 line. -/
abbrev F13Line := List Tok

/-- `readline().split()` on the modelled file: at end of file `readline`
returns the empty string, which tokenizes to `[]`. -/
def readline (lines : List F13Line) : F13Line × List F13Line :=
  match lines with
  | [] => ([], [])
  | l :: rest => (l, rest)

/-- `[float(val) for val in line]`. -/
def allFloats (line : F13Line) : Option (List ℚ) :=
  line.mapM tokFloat?

/-- The errors raised by `Fort13Reader.read` (each a `ValueError` with its
own message in the source) plus `decodeError` for any other escaped
exception (failed `int`/`float` conversion, missing token, missing key). -/
inductive F13Err : Type where
  | fileNotFound : F13Err
  | invalidFile : F13Err
  | nodeCountMismatch : F13Err
  | noAttributes : F13Err
  | decodeError : F13Err
deriving DecidableEq, Repr

/-- `get_dset_display_names`: fixed lookup table from nodal attribute card to
the display names of its datasets. -/
def getDsetDisplayNames (a : String) : List String :=
  if a = "surface_submergence_state" then ["StartDry"]
  else if a = "surface_directional_effective_roughness_length" then
    ["Z0Land000", "Z0Land030", "Z0Land060", "Z0Land090", "Z0Land120",
     "Z0Land150", "Z0Land180", "Z0Land210", "Z0Land240", "Z0Land270",
     "Z0Land300", "Z0Land330"]
  else if a = "surface_canopy_coefficient" then ["VCanopy"]
  else if a = "bottom_roughness_length" then ["Z0b_var"]
  else if a = "wave_refraction_in_swan" then ["SwanWaveRefrac"]
  else if a = "average_horizontal_eddy_viscosity_in_sea_water_wrt_depth" then
    ["EVC"]
  else if a = "primitive_weighting_in_continuity_equation" then ["TAU0"]
  else if a = "quadratic_friction_coefficient_at_sea_floor" then
    ["Quadratic friction"]
  else if a = "bridge_pilings_friction_paramenters" then
    ["BK", "BAlpha", "BDelX", "POAN"]
  else if a = "mannings_n_at_sea_floor" then ["ManningsN"]
  else if a = "chezy_friction_coefficient_at_sea_floor" then ["ChezyFric"]
  else if a = "elemental_slope_limiter" then ["ElSloLim"]
  else if a = "advection_state" then ["AdvState"]
  else if a = "initial_river_elevation" then ["IniRivEle"]
  else []

/-- `Fort13Reader._read_att_info`: for each attribute read the name line, skip
the units line and the dataset-count line, and read the default values; the
defaults dictionary is keyed by attribute name. -/
def readAttInfo :
    ℕ → List F13Line → List (String × List ℚ) →
    Option (List (String × List ℚ) × List F13Line)
  | 0, lines, defs => some (defs, lines)
  | n + 1, lines, defs =>
    let (nameLine, l1) := readline lines
    match nameLine.get? 0 with
    | none => none
    | some nameTok =>
      let (_, l2) := readline l1
      let (_, l3) := readline l2
      let (defLine, l4) := readline l3
      match allFloats defLine with
      | none => none
      | some defaults => readAttInfo n l4 (pyDictSet (tokStr nameTok) defaults defs)

/-- The `while not att_name_line` loop skipping blank lines before an
attribute's name line.  At end of file the source loops forever re-reading
the empty string; that divergence (unreachable in every modelled claim) is
mapped to `none`. -/
def skipBlanks : List F13Line → Option (F13Line × List F13Line)
  | [] => none
  | l :: rest => if l = [] then skipBlanks rest else some (l, rest)

/-- The component loop `for k in range(len(defaults))`: assign
`dset_vals[k][node_idx] = float(line_data[k + 1])` for each component `k`
from `k` up (called with `k = 0` and `n = ` the component count). -/
def setComponents (nodeIdx : ℤ) (line : F13Line) :
    ℕ → ℕ → List (List ℚ) → Option (List (List ℚ))
  | _, 0, dv => some dv
  | k, n + 1, dv =>
    match line.get? (k + 1) with
    | none => none
    | some tok =>
      match tokFloat? tok with
      | none => none
      | some v =>
        match dv.get? k with
        | none => none
        | some row =>
          match pySet row nodeIdx v with
          | some row2 => setComponents nodeIdx line (k + 1) n (dv.set k row2)
          | none => none

/-- The exception loop of `Fort13Reader._read_att_values`: read `n` records
`node_id value_1 .. value_k`, each overriding the defaults at the 0-based
position `node_id - 1` in every component. -/
def readExceptions (numDsets : ℕ) :
    ℕ → List (List ℚ) → List F13Line → Option (List (List ℚ) × List F13Line)
  | 0, dv, lines => some (dv, lines)
  | n + 1, dv, lines =>
    let (line, rest) := readline lines
    match line.get? 0 with
    | none => none
    | some t0 =>
      match tokInt? t0 with
      | none => none
      | some nodeId =>
        match setComponents (nodeId - 1) line 0 numDsets dv with
        | some dv2 => readExceptions numDsets n dv2 rest
        | none => none

/-- Result state of the fort.13 read: the `self.datasets` dictionary mapping
display name to per-node values, and the `self.nodal_atts` dictionary holding
the geoid-offset special case. -/
structure F13State : Type where
  datasets : List (String × List ℚ)
  nodalAtts : List (String × ℚ)
deriving DecidableEq, Repr

/-- The dataset-creation loop at the end of an attribute block:
`for j in range(num_att_dsets)` look up `display_names[j]` (an `IndexError`
if the lookup table has too few names for this attribute's component count)
and record the dataset under that name. -/
def addDatasetsLoop (displayNames : List String) :
    ℕ → List (List ℚ) → List (String × List ℚ) →
    Option (List (String × List ℚ))
  | _, [], ds => some ds
  | j, v :: vs, ds =>
    match displayNames.get? j with
    | none => none
    | some nm => addDatasetsLoop displayNames (j + 1) vs (pyDictSet nm v ds)

/-- The synthesized display names used for an unrecognized attribute. -/
def synthDisplayNames (attName : String) (numAttDsets : ℕ) : List String :=
  if numAttDsets ≠ 1 then
    (List.range numAttDsets).map
      (fun i => attName ++ " (" ++ toString (i + 1) ++ ")")
  else [attName]

/-- One attribute block of `Fort13Reader._read_att_values`: skip blank lines,
read the attribute name, look up its defaults, read the exception count and
the exception records, then either record the geoid-offset scalar (mean of
the resolved values) or create one dataset per component. -/
def readAttValuesOne (numNodes : ℕ) (defs : List (String × List ℚ))
    (st : F13State) (lines : List F13Line) :
    Option (F13State × List F13Line) :=
  match skipBlanks lines with
  | none => none
  | some (nameLine, l1) =>
    match nameLine.get? 0 with
    | none => none
    | some nameTok =>
      let attName := tokStr nameTok
      match pyDictGet? attName defs with
      | none => none
      | some defaults =>
        let numAttDsets := defaults.length
        let (excLine, l2) := readline l1
        match excLine.get? 0 with
        | none => none
        | some t0 =>
          match tokInt? t0 with
          | none => none
          | some numExc =>
            let dsetVals := defaults.map (fun d => List.replicate numNodes d)
            match readExceptions numAttDsets numExc.toNat dsetVals l2 with
            | none => none
            | some (dv, l3) =>
              if attName = "sea_surface_height_above_geoid" then
                match dv.get? 0 with
                | none => none
                | some row =>
                  some
                    ({ st with
                        nodalAtts :=
                          pyDictSet "sea_surface_height_above_geoid"
                            (row.sum / (numNodes : ℚ))
                            (pyDictSet "sea_surface_height_above_geoid_on" 1
                              st.nodalAtts) }, l3)
              else
                let displayNames :=
                  if getDsetDisplayNames attName = [] then
                    synthDisplayNames attName numAttDsets
                  else getDsetDisplayNames attName
                match addDatasetsLoop displayNames 0 dv st.datasets with
                | none => none
                | some ds => some ({ st with datasets := ds }, l3)

/-- The attribute loop of `Fort13Reader._read_att_values`. -/
def readAttValuesLoop (numNodes : ℕ) (defs : List (String × List ℚ)) :
    ℕ → F13State → List F13Line → Option F13State
  | 0, st, _ => some st
  | n + 1, st, lines =>
    match readAttValuesOne numNodes defs st lines with
    | none => none
    | some (st2, rest) => readAttValuesLoop numNodes defs n st2 rest

/-- `Fort13Reader.read`: the missing/empty-file pre-check, the three header
lines, the header validation (`InvalidFile`, `NodeCountMismatch`,
`NoAttributes`), then the two passes over the attribute blocks. -/
def fort13Read (fileOk : Bool) (lines : List F13Line) (geomNumNodes : ℤ) :
    Except F13Err F13State :=
  if !fileOk then .error .fileNotFound
  else
    let (_, l1) := readline lines
    let (nodeLine, l2) := readline l1
    match nodeLine.get? 0 with
    | none => .error .decodeError
    | some nodeTok =>
      match tokInt? nodeTok with
      | none => .error .decodeError
      | some numNodes =>
        let (attLine, l3) := readline l2
        match attLine.get? 0 with
        | none => .error .decodeError
        | some attTok =>
          match tokInt? attTok with
          | none => .error .decodeError
          | some numAtts =>
            if numNodes ≤ 0 then .error .invalidFile
            else if numNodes ≠ geomNumNodes then .error .nodeCountMismatch
            else if numAtts = 0 then .error .noAttributes
            else
              match readAttInfo numAtts.toNat l3 [] with
              | none => .error .decodeError
              | some (defs, l4) =>
                match readAttValuesLoop numNodes.toNat defs numAtts.toNat
                    ⟨[], []⟩ l4 with
                | none => .error .decodeError
                | some st => .ok st

/-! ## fort.14 mesh reader (`xms/adcirc/fort14_reader.py`) -/

/-- A point: `(x, y, z)` with z the negated file depth. -/
abbrev Pt := ℚ × ℚ × ℚ

/-- The `self.pt_map` dictionary `{id_in_file: ((x,y,z), point_index)}`. -/
abbrev PtMap := List (ℤ × (Pt × ℕ))

/-- The node loop of `Fort14Reader._read_mesh`: each line is
`point_id x y z`; the point's array index is the size of `pt_map` at the
moment the line is read, and the depth is negated. -/
def readNodesLoop : ℕ → List QLine → PtMap → Option (PtMap × List QLine)
  | 0, lines, pm => some (pm, lines)
  | _ + 1, [], _ => none
  | n + 1, line :: rest, pm =>
    match line.get? 0, line.get? 1, line.get? 2, line.get? 3 with
    | some t0, some x, some y, some z =>
      match pyInt t0 with
      | some pid => readNodesLoop n rest (pyDictSet pid ((x, y, -z), pm.length) pm)
      | none => none
    | _, _, _, _ => none

/-- `Fort14Reader._get_cell_stream_vals` for one cell line
`poly_id num_nodes p1 p2 p3`: look each referenced file point ID up in
`pt_map` (a `KeyError`, hence a hard error, if absent) and take its array
index.  The constant `TRIANGLE, 3` stream prefix carries no information and
the cell is recorded as the triple of point indices. -/
def getCellStreamVals (pm : PtMap) (line : QLine) : Option (ℕ × ℕ × ℕ) :=
  match line.get? 2, line.get? 3, line.get? 4 with
  | some t2, some t3, some t4 =>
    match pyInt t2, pyInt t3, pyInt t4 with
    | some p1, some p2, some p3 =>
      match pyDictGet? p1 pm, pyDictGet? p2 pm, pyDictGet? p3 pm with
      | some d1, some d2, some d3 => some (d1.2, d2.2, d3.2)
      | _, _, _ => none
    | _, _, _ => none
  | _, _, _ => none

/-- The cell loop of `Fort14Reader._read_mesh`. -/
def readCellsLoop (pm : PtMap) :
    ℕ → List QLine → List (ℕ × ℕ × ℕ) → Option (List (ℕ × ℕ × ℕ) × List QLine)
  | 0, lines, acc => some (acc, lines)
  | _ + 1, [], _ => none
  | n + 1, line :: rest, acc =>
    match getCellStreamVals pm line with
    | some cell => readCellsLoop pm n rest (acc ++ [cell])
    | none => none

/-- One step of the bounding-extents fold: widen
`(min_x, min_y, max_x, max_y)` by one point. -/
def extStep (e : ℚ × ℚ × ℚ × ℚ) (q : Pt) : ℚ × ℚ × ℚ × ℚ :=
  (min e.1 q.1, min e.2.1 q.2.1, max e.2.2.1 q.1, max e.2.2.2 q.2.1)

/-- Bounding extents of the point list (`u_grid.extents`):
`(min_x, min_y, max_x, max_y)`; `none` for an empty mesh (not modelled —
the extents call is a library call whose empty-grid behavior the source
never exercises on the claims considered here). -/
def meshExtents : List Pt → Option (ℚ × ℚ × ℚ × ℚ)
  | [] => none
  | p :: rest => some (rest.foldl extStep (p.1, p.2.1, p.1, p.2.1))

/-- The geographic-extents check at the end of `Fort14Reader._read_mesh`:
`assume_geo_coords` becomes true exactly when the whole bounding box lies in
`[-180, 180] × [-90, 90]`. -/
def geoCheck (pts : List Pt) : Bool :=
  match meshExtents pts with
  | some (mnx, mny, mxx, mxy) =>
    decide (-180 ≤ mnx ∧ -90 ≤ mny ∧ mxx ≤ 180 ∧ mxy ≤ 90)
  | none => false

/-- The coordinate-system tag derived in `Fort14Reader._assign_wkt`. -/
inductive CoordSys : Type where
  | geographic : CoordSys
  | localMeters : CoordSys
deriving DecidableEq, Repr

/-- Result of `Fort14Reader.read`: the mesh (points in first-insertion order
of their file IDs, triangular cells as point-index triples), the header
counts, and the assigned coordinate-system tag. -/
structure Fort14Result : Type where
  points : List Pt
  cells : List (ℕ × ℕ × ℕ)
  numNodes : ℤ
  numCells : ℤ
  wkt : CoordSys
deriving DecidableEq, Repr

/-- `Fort14Reader.read` / `_parse_lines` / `_read_mesh`: the missing/empty
file pre-check, the grid-name line, the `cell_count node_count` header
(cell count first), the node and cell loops, and the WKT assignment.  Any
escaped exception (missing line or token, undefined point reference) is
`none`: the read is all-or-nothing. -/
def fort14Read (fileOk : Bool) (lines : List QLine) : Option Fort14Result :=
  if !fileOk then none
  else
    match lines with
    | [] => none
    | _nameLine :: rest =>
      match rest with
      | [] => none
      | hdr :: body =>
        match hdr.get? 0, hdr.get? 1 with
        | some t0, some t1 =>
          match pyInt t0, pyInt t1 with
          | some numCells, some numNodes =>
            match readNodesLoop numNodes.toNat body [] with
            | some (pm, body2) =>
              match readCellsLoop pm numCells.toNat body2 [] with
              | some (cells, _) =>
                let pts := pm.map (fun e => e.2.1)
                some ⟨pts, cells, numNodes, numCells,
                  if geoCheck pts then .geographic else .localMeters⟩
              | none => none
            | none => none
          | _, _ => none
        | _, _ => none

/-! ## Boundary-coverage levee pairs
(`initial_adcirc_readers/fort14_reader.py`, `_read_coverages` and
`_read_levee_and_pipe`)

The nodestring bookkeeping of `_read_coverages` is four parallel arrays
(`comp_id_data`, `partner_id_data`, `nodes_start_idx_data`,
`node_count_data`) plus the flat `nodes` list and the levee record columns.
Arcs are modelled after the line grammar has grouped the per-arc lines. -/

/-- Modelled from the spec: `UNINITIALIZED_COMP_ID`, the sentinel stored in
`partner_id_data` for an arc that has no partner (the defining module
`xms.adcirc.data.adcirc_data` is not part of the sources); the spec calls
partner linkage symmetric only between the two arcs of a levee pair, so the
sentinel is a value that is never a valid arc index. -/
def UNINITIALIZED_COMP_ID : ℤ := -1

/-- The levee record columns accumulated in `levee_data`. -/
structure LeveeData : Type where
  node1 : List ℤ
  node2 : List ℤ
  height : List ℚ
  subCoef : List ℚ
  superCoef : List ℚ
  pipeOn : List ℤ
  pipeZ : List ℚ
  pipeDiameter : List ℚ
  pipeCoef : List ℚ
deriving DecidableEq, Repr

/-- State built up by `_read_coverages`: the four parallel nodestring arrays,
the flat node list, the levee columns, and the `add_bc_atts` component-id
allocator. -/
structure CovState : Type where
  compIds : List ℤ
  partnerIds : List ℤ
  nodeCounts : List ℤ
  nodeStartIdxs : List ℤ
  nodes : List ℤ
  levee : LeveeData
  nextCompId : ℤ
deriving DecidableEq, Repr

/-- The empty coverage state. -/
def CovState.init : CovState :=
  ⟨[], [], [], [], [], ⟨[], [], [], [], [], [], [], [], []⟩, 0⟩

/-- An ocean or generic boundary arc: its declared node count and its
per-node lines (each starting with a file point ID). -/
structure SimpleArc : Type where
  count : ℤ
  arcLines : List QLine
deriving DecidableEq, Repr

/-- A land boundary arc: declared node count, IBTYPE, and per-node lines
(levee lines carry two point IDs and the levee/pipe columns; inline
`!`-comments are stripped before tokenizing). -/
structure LandArc : Type where
  count : ℤ
  ibType : ℤ
  arcLines : List QLine
deriving DecidableEq, Repr

/-- The per-node loop shared by ocean, generic and "simple" land arcs: look
up each line's point ID and append its 1-based array index to `nodes`. -/
def readArcNodes (pm : PtMap) : ℕ → List QLine → List ℤ → Option (List ℤ)
  | 0, _, nodes => some nodes
  | _ + 1, [], _ => none
  | n + 1, line :: rest, nodes =>
    match line.get? 0 with
    | some t0 =>
      match pyInt t0 with
      | some pid =>
        match pyDictGet? pid pm with
        | some pd => readArcNodes pm n rest (nodes ++ [(pd.2 : ℤ) + 1])
        | none => none
      | none => none
    | none => none

/-- One iteration of the per-node loop of `_read_levee_and_pipe`: the line is
`pt1 pt2 height sub_coef super_coef [pipe_z pipe_coef pipe_diameter]`; the
pipe is enabled when pipe data is present and its height is below the 100.0
sentinel.  The accumulators are the column lists being built. -/
def readLeveePairLines (pm : PtMap) :
    ℕ → List QLine →
    List ℤ × List ℤ × List ℚ × List ℚ × List ℚ × List ℤ × List ℚ × List ℚ ×
      List ℚ →
    Option
      ((List ℤ × List ℤ × List ℚ × List ℚ × List ℚ × List ℤ × List ℚ ×
        List ℚ × List ℚ) × List QLine)
  | 0, lines, acc => some (acc, lines)
  | _ + 1, [], _ => none
  | n + 1, line :: rest, (n1, n2, hs, sub, sup, pOn, pZ, pD, pC) =>
    match line.get? 0, line.get? 1, line.get? 2, line.get? 3, line.get? 4 with
    | some t0, some t1, some t2, some t3, some t4 =>
      match pyInt t0, pyInt t1 with
      | some pt1, some pt2 =>
        match pyDictGet? pt1 pm, pyDictGet? pt2 pm with
        | some pd1, some pd2 =>
          if 7 < line.length then
            match line.get? 5, line.get? 6, line.get? 7 with
            | some z, some coef, some diam =>
              readLeveePairLines pm n rest
                (n1 ++ [(pd1.2 : ℤ) + 1], n2 ++ [(pd2.2 : ℤ) + 1], hs ++ [t2],
                  sub ++ [t3], sup ++ [t4],
                  pOn ++ [if z < 100 then 1 else 0], pZ ++ [z], pD ++ [diam],
                  pC ++ [coef])
            | _, _, _ => none
          else
            readLeveePairLines pm n rest
              (n1 ++ [(pd1.2 : ℤ) + 1], n2 ++ [(pd2.2 : ℤ) + 1], hs ++ [t2],
                sub ++ [t3], sup ++ [t4], pOn ++ [0], pZ ++ [0], pD ++ [0],
                pC ++ [0])
        | _, _ => none
      | _, _ => none
    | _, _, _, _, _ => none

/-- `_read_levee_and_pipe`: read the pair's node lines and extend `nodes`
(first side then second side) and the levee columns. -/
def readLeveeAndPipe (pm : PtMap) (numArcNodes : ℕ) (st : CovState)
    (arcLines : List QLine) : Option CovState :=
  match readLeveePairLines pm numArcNodes arcLines
      ([], [], [], [], [], [], [], [], []) with
  | none => none
  | some ((n1, n2, hs, sub, sup, pOn, pZ, pD, pC), _) =>
    some
      { st with
        nodes := st.nodes ++ n1 ++ n2,
        levee :=
          ⟨st.levee.node1 ++ n1, st.levee.node2 ++ n2, st.levee.height ++ hs,
            st.levee.subCoef ++ sub, st.levee.superCoef ++ sup,
            st.levee.pipeOn ++ pOn, st.levee.pipeZ ++ pZ,
            st.levee.pipeDiameter ++ pD, st.levee.pipeCoef ++ pC⟩ }

/-- The per-node loop of `_read_levee_outflow` (`pt_id height flow_coef`). -/
def readLeveeOutflowLines (pm : PtMap) :
    ℕ → List QLine → List ℤ × List ℚ × List ℚ →
    Option ((List ℤ × List ℚ × List ℚ) × List QLine)
  | 0, lines, acc => some (acc, lines)
  | _ + 1, [], _ => none
  | n + 1, line :: rest, (ids, hs, cs) =>
    match line.get? 0, line.get? 1, line.get? 2 with
    | some t0, some t1, some t2 =>
      match pyInt t0 with
      | some pid =>
        match pyDictGet? pid pm with
        | some pd =>
          readLeveeOutflowLines pm n rest
            (ids ++ [(pd.2 : ℤ) + 1], hs ++ [t1], cs ++ [t2])
        | none => none
      | none => none
    | _, _, _ => none

/-- `_read_levee_outflow`: read the arc's node lines and extend `nodes` and
the levee columns (`node2` is uninitialized, `sub_coef` zero, the read flow
coefficient goes to `super_coef`, pipes off). -/
def readLeveeOutflow (pm : PtMap) (numArcNodes : ℕ) (st : CovState)
    (arcLines : List QLine) : Option CovState :=
  match readLeveeOutflowLines pm numArcNodes arcLines ([], [], []) with
  | none => none
  | some ((ids, hs, cs), _) =>
    some
      { st with
        nodes := st.nodes ++ ids,
        levee :=
          ⟨st.levee.node1 ++ ids,
            st.levee.node2 ++ ids.map (fun _ => UNINITIALIZED_COMP_ID),
            st.levee.height ++ hs, st.levee.subCoef ++ hs.map (fun _ => 0),
            st.levee.superCoef ++ cs, st.levee.pipeOn ++ ids.map (fun _ => 0),
            st.levee.pipeZ ++ hs.map (fun _ => 0),
            st.levee.pipeDiameter ++ hs.map (fun _ => 0),
            st.levee.pipeCoef ++ hs.map (fun _ => 0)⟩ }

/-- Processing of one ocean (or generic) arc in `_read_coverages`: allocate a
component id, append one entry to each parallel array with an uninitialized
partner, and append the arc's node indices. -/
def processSimpleEntry (pm : PtMap) (st : CovState) (arc : SimpleArc) :
    Option CovState :=
  let comp := st.nextCompId
  match readArcNodes pm arc.count.toNat arc.arcLines [] with
  | none => none
  | some ids =>
    some
      { st with
        compIds := st.compIds ++ [comp],
        partnerIds := st.partnerIds ++ [UNINITIALIZED_COMP_ID],
        nodeStartIdxs := st.nodeStartIdxs ++ [(st.nodes.length : ℤ)],
        nodeCounts := st.nodeCounts ++ [arc.count],
        nodes := st.nodes ++ ids,
        nextCompId := st.nextCompId + 1 }

/-- Processing of one land arc in `_read_coverages`: levee types
(IBTYPE ending in 4 or 5) append two parallel-array entries with the same
node count and mutually-referencing partner indices; levee outflow (ending
in 3) and all other land types append a single entry with an uninitialized
partner. -/
def processLandArc (pm : PtMap) (st : CovState) (arc : LandArc) :
    Option CovState :=
  let comp := st.nextCompId
  let st := { st with nextCompId := st.nextCompId + 1 }
  if arc.ibType % 10 = 3 then
    let st2 :=
      { st with
        compIds := st.compIds ++ [comp],
        nodeCounts := st.nodeCounts ++ [arc.count],
        nodeStartIdxs := st.nodeStartIdxs ++ [(st.nodes.length : ℤ)],
        partnerIds := st.partnerIds ++ [UNINITIALIZED_COMP_ID] }
    readLeveeOutflow pm arc.count.toNat st2 arc.arcLines
  else if arc.ibType % 10 = 4 ∨ arc.ibType % 10 = 5 then
    let nodestring1Idx := (st.partnerIds.length : ℤ)
    let st2 :=
      { st with
        compIds := st.compIds ++ [comp, comp],
        nodeCounts := st.nodeCounts ++ [arc.count, arc.count],
        nodeStartIdxs :=
          st.nodeStartIdxs ++
            [(st.nodes.length : ℤ), (st.nodes.length : ℤ) + arc.count],
        partnerIds := st.partnerIds ++ [nodestring1Idx + 1, nodestring1Idx] }
    readLeveeAndPipe pm arc.count.toNat st2 arc.arcLines
  else
    let st2 :=
      { st with
        compIds := st.compIds ++ [comp],
        nodeCounts := st.nodeCounts ++ [arc.count],
        nodeStartIdxs := st.nodeStartIdxs ++ [(st.nodes.length : ℤ)],
        partnerIds := st.partnerIds ++ [UNINITIALIZED_COMP_ID] }
    match readArcNodes pm arc.count.toNat arc.arcLines [] with
    | none => none
    | some ids => some { st2 with nodes := st2.nodes ++ ids }

/-- Fold of `processSimpleEntry` over a list of arcs. -/
def processSimpleArcs (pm : PtMap) :
    List SimpleArc → CovState → Option CovState
  | [], st => some st
  | a :: rest, st =>
    match processSimpleEntry pm st a with
    | none => none
    | some st2 => processSimpleArcs pm rest st2

/-- Fold of `processLandArc` over the land arcs. -/
def processLandArcs (pm : PtMap) : List LandArc → CovState → Option CovState
  | [], st => some st
  | a :: rest, st =>
    match processLandArc pm st a with
    | none => none
    | some st2 => processLandArcs pm rest st2

/-- `_read_coverages` over structured arc groups: the ocean arcs, then the
land arcs (with the IBTYPE-driven levee sub-grammar), then the generic arcs.
The tolerant handling of truncated trailing sections simply ends processing
early and is not exercised by the claims. -/
def readCoverages (pm : PtMap) (ocean : List SimpleArc) (land : List LandArc)
    (generic : List SimpleArc) : Option CovState :=
  match processSimpleArcs pm ocean CovState.init with
  | none => none
  | some st1 =>
    match processLandArcs pm land st1 with
    | none => none
    | some st2 => processSimpleArcs pm generic st2

/-- Invariant of the coverage nodestring arrays: the partner array and the
node-count array run in parallel, and every set (non-sentinel) partner link
is mutually symmetric with identical node counts on both sides. -/
def covInv (st : CovState) : Prop :=
  st.partnerIds.length = st.nodeCounts.length ∧
  ∀ (i : ℕ) (j : ℤ), st.partnerIds.get? i = some j →
    j ≠ UNINITIALIZED_COMP_ID →
    0 ≤ j ∧ st.partnerIds.get? j.toNat = some (i : ℤ) ∧
    st.nodeCounts.get? i = st.nodeCounts.get? j.toNat ∧
    (st.nodeCounts.get? i).isSome

/-! ## Input constructors and specification-side helpers used in theorem
statements -/

deriving instance DecidableEq for Except

/-- A fort.14 node line `point_id x y depth`. -/
def mkNodeLine (nd : ℤ × ℚ × ℚ × ℚ) : QLine :=
  [(nd.1 : ℚ), nd.2.1, nd.2.2.1, nd.2.2.2]

/-- A fort.14 triangular cell line `poly_id 3 p1 p2 p3`. -/
def mkCellLine (c : ℤ × ℤ × ℤ) : QLine :=
  [0, 3, (c.1 : ℚ), (c.2.1 : ℚ), (c.2.2 : ℚ)]

/-- The fort.14 point-map entries produced for a run of node records with
pairwise distinct file point IDs, starting at array index `start`. -/
def ptEntries (start : ℕ) (nodes : List (ℤ × ℚ × ℚ × ℚ)) : PtMap :=
  (nodes.enumFrom start).map
    (fun p => (p.2.1, ((p.2.2.1, p.2.2.2.1, -p.2.2.2.2), p.1)))

/-- A fort.13 exception record line `node_id value_1 .. value_k`. -/
def mkExcLine (e : ℤ × List ℚ) : F13Line :=
  Tok.num (e.1 : ℚ) :: e.2.map Tok.num

/-- A well-formed fort.13 attribute value block: the attribute name line,
the exception-count line, and the exception records. -/
def mkAttValueBlock (attName : String) (excs : List (ℤ × List ℚ)) :
    List F13Line :=
  [Tok.word attName] :: [Tok.num (excs.length : ℚ)] :: excs.map mkExcLine

/-- Effect of one fort.13 exception record on the per-component value
arrays: component `k` is set to the record's `k`-th value at the 0-based
position `node_id - 1`. -/
def applyExc (dv : List (List ℚ)) (e : ℤ × List ℚ) : List (List ℚ) :=
  List.zipWith (fun row v => row.set (e.1 - 1).toNat v) dv e.2

/-- Effect of a run of fort.13 exception records. -/
def applyExcs (dv : List (List ℚ)) (excs : List (ℤ × List ℚ)) :
    List (List ℚ) :=
  excs.foldl applyExc dv

/-- The display names an attribute block resolves to: the lookup table's
entry when the attribute is known, the synthesized names otherwise. -/
def resolvedDisplayNames (attName : String) (numAttDsets : ℕ) : List String :=
  if getDsetDisplayNames attName = [] then synthDisplayNames attName numAttDsets
  else getDsetDisplayNames attName

/-- A dense (non-sparse) ASCII scalar timestep block: the timestep header
line holding only the time, then one `node_id value` line per node. -/
def mkDenseScalarBlock (b : ℚ × List ℚ) : List QLine :=
  [b.1] :: b.2.map (fun v => [0, v])

/-- A dense (non-sparse) ASCII vector timestep block: the timestep header
line holding only the time, then one `node_id x y` line per node. -/
def mkDenseVectorBlock (b : ℚ × List (ℚ × ℚ)) : List QLine :=
  [b.1] :: b.2.map (fun v => [0, v.1, v.2])

/-- A sparse ASCII scalar `(node_id, value)` record line. -/
def mkSparsePairLine (p : ℤ × ℚ) : QLine :=
  [(p.1 : ℚ), p.2]

/-- Result of applying a run of sparse records to a value array. -/
def applyPairs (vals : List ℚ) (pairs : List (ℤ × ℚ)) : List ℚ :=
  pairs.foldl (fun vs p => vs.set (p.1 - 1).toNat p.2) vals

/-! ## Helper lemmas -/

theorem pyDictGet?_set_self {κ α : Type} [DecidableEq κ] (k : κ) (v : α)
    (m : List (κ × α)) : pyDictGet? k (pyDictSet k v m) = some v := by
  induction m with
  | nil => simp [pyDictSet, pyDictGet?]
  | cons p rest ih =>
    by_cases h : p.1 = k
    · simp [pyDictSet, h, pyDictGet?]
    · simpa [pyDictSet, h, pyDictGet?, List.find?] using ih

theorem pyDictGet?_set_ne {κ α : Type} [DecidableEq κ] {k k' : κ} (v : α)
    (m : List (κ × α)) (h : k' ≠ k) :
    pyDictGet? k (pyDictSet k' v m) = pyDictGet? k m := by
  induction m with
  | nil => simp [pyDictSet, pyDictGet?, List.find?, h]
  | cons p rest ih =>
    rw [pyDictSet]
    by_cases hp : p.1 = k'
    · have hpk : p.1 ≠ k := by rw [hp]; exact h
      simp [hp, pyDictGet?, List.find?, h, hpk]
    · simp only [if_neg hp]
      by_cases hk : p.1 = k
      · simp [pyDictGet?, List.find?, hk]
      · simpa [pyDictGet?, List.find?, hk] using ih

theorem pyDictSet_of_get?_none {κ α : Type} [DecidableEq κ] {k : κ} (v : α)
    {m : List (κ × α)} (h : pyDictGet? k m = none) :
    pyDictSet k v m = m ++ [(k, v)] := by
  induction m with
  | nil => simp [pyDictSet]
  | cons p rest ih =>
    by_cases hp : p.1 = k
    · simp [pyDictGet?, List.find?, hp] at h
    · simp only [pyDictGet?, List.find?] at h
      rw [pyDictSet]
      simp only [hp, if_false, List.cons_append]
      congr 1
      exact ih (by simpa [pyDictGet?, hp] using h)

theorem pyInt_intCast (n : ℤ) : pyInt (n : ℚ) = some n := by
  simp [pyInt]

theorem pyInt_natCast (n : ℕ) : pyInt (n : ℚ) = some (n : ℤ) := by
  simpa using pyInt_intCast (n : ℤ)

theorem pySet_of_nonneg {α : Type} {l : List α} {i : ℤ} (v : α)
    (h0 : 0 ≤ i) (h1 : i < (l.length : ℤ)) :
    pySet l i v = some (l.set i.toNat v) := by
  simp [pySet, h0, h1]

/-! ## C1: NetCDF null handling -/

/-- C1 (counterexample): the claim asserts that every element that is not the
sentinel and not NaN — in particular a legitimate 0.0 — is emitted unchanged
by the maximum/extreme NetCDF read; but `read_netcdf_max_scalars` emits
`float(x) if x else ADCIRC_NULL_VALUE`, which maps the (falsy) value 0.0 to
the null sentinel. -/
theorem c1_counterexample :
    readNetcdfMaxScalars [NCVal.val 0] [NCVal.val 0] =
      some ([NCVal.val ADCIRC_NULL_VALUE], [NCVal.val ADCIRC_NULL_VALUE]) ∧
    NCVal.val ADCIRC_NULL_VALUE ≠ NCVal.val 0 := by
  constructor
  · rfl
  · simp [ADCIRC_NULL_VALUE]

/-- C1 (amended): for the scalar and vector NetCDF reads, the
sentinel→NaN→sentinel round trip leaves every non-NaN element — sentinel and
legitimate 0.0 alike — unchanged; the maximum/extreme read instead emits
every truthy element (any nonzero value, NaN included) unchanged through
`float` and replaces every zero element by the sentinel. -/
theorem c1_amended :
    (∀ (data out : List NCVal) (i : ℕ) (q : ℚ),
      readNetcdfScalars data = some out →
      data.get? i = some (NCVal.val q) → out.get? i = some (NCVal.val q)) ∧
    (∀ (xData yData : List NCVal) (out : List (NCVal × NCVal)) (i : ℕ)
      (qx qy : ℚ),
      readNetcdfVectors xData yData = some out →
      xData.get? i = some (NCVal.val qx) →
      yData.get? i = some (NCVal.val qy) →
      out.get? i = some (NCVal.val qx, NCVal.val qy)) ∧
    (∀ (extreme timeData : List NCVal) (outE outT : List NCVal) (i : ℕ)
      (v : NCVal),
      readNetcdfMaxScalars extreme timeData = some (outE, outT) →
      (extreme.get? i = some v →
        (pyTruthy v = true → outE.get? i = some v) ∧
        (v = NCVal.val 0 → outE.get? i = some (NCVal.val ADCIRC_NULL_VALUE))) ∧
      (timeData.get? i = some v →
        (pyTruthy v = true → outT.get? i = some v) ∧
        (v = NCVal.val 0 → outT.get? i = some (NCVal.val ADCIRC_NULL_VALUE)))) := by
  have hval : ∀ q : ℚ, nanToNull (nullToNan (NCVal.val q)) = NCVal.val q := by
    intro q
    by_cases h : q = ADCIRC_NULL_VALUE
    · simp [nullToNan, nanToNull, h, ADCIRC_NULL_VALUE]
    · simp [nullToNan, nanToNull, h]
  have hmax : ∀ v : NCVal, (pyTruthy v = true → maxScalarElem v = v) ∧
      (v = NCVal.val 0 → maxScalarElem v = NCVal.val ADCIRC_NULL_VALUE) := by
    intro v
    constructor
    · intro h; simp [maxScalarElem, h]
    · rintro rfl; simp [maxScalarElem, pyTruthy]
  refine ⟨?_, ?_, ?_⟩
  · intro data out i q hread hget
    rw [readNetcdfScalars] at hread
    split at hread
    · exact absurd hread (by simp)
    · cases hread
      simp only [List.get?_map, hget, Option.map_some']
      rw [hval]
  · intro xData yData out i qx qy hread hx hy
    rw [readNetcdfVectors] at hread
    split at hread
    · exact absurd hread (by simp)
    · cases hread
      have hx2 : (xData.map nullToNan).get? i = some (nullToNan (NCVal.val qx)) := by
        rw [List.get?_map, hx, Option.map_some']
      have hy2 : (yData.map nullToNan).get? i = some (nullToNan (NCVal.val qy)) := by
        rw [List.get?_map, hy, Option.map_some']
      have hz : ((xData.map nullToNan).zip (yData.map nullToNan)).get? i =
          some (nullToNan (NCVal.val qx), nullToNan (NCVal.val qy)) :=
        (List.get?_zip_eq_some _ _ _ _).mpr ⟨hx2, hy2⟩
      rw [List.get?_map, hz, Option.map_some']
      rw [hval, hval]
  · intro extreme timeData outE outT i v hread
    rw [readNetcdfMaxScalars] at hread
    split at hread
    · exact absurd hread (by simp)
    · cases hread
      constructor
      · intro hget
        constructor
        · intro htr
          simp only [List.get?_map, hget, Option.map_some', (hmax v).1 htr]
        · intro hz
          simp only [List.get?_map, hget, Option.map_some', (hmax v).2 hz]
      · intro hget
        constructor
        · intro htr
          simp only [List.get?_map, hget, Option.map_some', (hmax v).1 htr]
        · intro hz
          simp only [List.get?_map, hget, Option.map_some', (hmax v).2 hz]

/-- C1 (witness): the amended theorem applied to concrete one-element reads. -/
theorem c1_witness :
    readNetcdfScalars [NCVal.val 0] = some [NCVal.val 0] ∧
    [NCVal.val 0].get? 0 = some (NCVal.val 0) ∧
    readNetcdfMaxScalars [NCVal.val 3] [NCVal.val 3] =
      some ([NCVal.val 3], [NCVal.val 3]) ∧
    [NCVal.val 3].get? 0 = some (NCVal.val 3) := by
  refine ⟨by rfl, ?_, by rfl, ?_⟩
  · exact c1_amended.1 [NCVal.val 0] [NCVal.val 0] 0 0 (by rfl) (by rfl)
  · exact ((c1_amended.2.2 [NCVal.val 3] [NCVal.val 3] [NCVal.val 3]
      [NCVal.val 3] 0 (NCVal.val 3) (by rfl)).1 (by rfl)).1 (by decide)

/-! ## C2: batch hard error -/

theorem addMeshDatasetsStep_fst (st : Bool × ℕ) (f : SolFile) :
    (addMeshDatasetsStep st f).1 = (st.1 || dispatched f) := by
  rw [addMeshDatasetsStep, dispatched]
  rcases f with ⟨od, stn, fmt, ct⟩
  cases od <;> cases stn <;> cases fmt <;> simp

theorem addMeshDatasets_foldl_fst (files : List SolFile) :
    ∀ st : Bool × ℕ,
      (files.foldl addMeshDatasetsStep st).1 = (st.1 || files.any dispatched) := by
  induction files with
  | nil => intro st; simp
  | cons f rest ih =>
    intro st
    rw [List.foldl_cons, ih, addMeshDatasetsStep_fst, List.any_cons,
      Bool.or_assoc]

theorem addMeshDatasets_foldl_snd_of_none (files : List SolFile) :
    ∀ st : Bool × ℕ, files.any dispatched = false →
      (files.foldl addMeshDatasetsStep st).2 = st.2 := by
  induction files with
  | nil => intro st _; rfl
  | cons f rest ih =>
    intro st hany
    rw [List.any_cons, Bool.or_eq_false_iff] at hany
    rw [List.foldl_cons, ih _ hany.2]
    rw [addMeshDatasetsStep, dispatched] at *
    rcases f with ⟨od, stn, fmt, ct⟩
    cases od <;> cases stn <;> cases fmt <;> simp_all

/-- C2 (counterexample): the claim says the batch read reports its hard
error if and only if zero usable datasets were produced; but a batch whose
single file has a recognized format and empty content produces zero datasets
(the reader raises while parsing the header and adds nothing) while
`read_data` was still set by the dispatch, so no hard error is reported. -/
theorem c2_counterexample :
    (addMeshDatasets [⟨true, false, .recognizedScalar, []⟩]).2 = 0 ∧
    solutionReadHardError [⟨true, false, .recognizedScalar, []⟩] = false := by
  constructor <;> rfl

/-- C2 (amended): the batch read reports its hard error if and only if no
file in the batch was dispatched to a reader (every file was missing, a
recording-station file, or of unrecognized format); a file that was
dispatched suppresses the error even when its reader produced no dataset.
Consequently an unrecognized file never fails the batch as long as some
other file was dispatched — in particular whenever some file produced a
dataset. -/
theorem c2_amended (files : List SolFile) :
    (solutionReadHardError files = true ↔
      ∀ f ∈ files, ¬(f.onDisk = true ∧ f.isStation = false ∧
        f.format = SolFormat.recognizedScalar)) ∧
    ((addMeshDatasets files).2 ≠ 0 → solutionReadHardError files = false) := by
  have hfst : (addMeshDatasets files).1 = files.any dispatched := by
    rw [addMeshDatasets, addMeshDatasets_foldl_fst]
    simp
  constructor
  · rw [solutionReadHardError, hfst]
    rw [Bool.not_eq_true', List.any_eq_false]
    constructor
    · intro h f hf hcon
      have := h f hf
      rw [dispatched] at this
      simp [hcon.1, hcon.2.1, hcon.2.2] at this
    · intro h f hf
      have := h f hf
      rw [dispatched]
      rcases f with ⟨od, stn, fmt, ct⟩
      cases od <;> cases stn <;> cases fmt <;> simp_all
  · intro hprod
    rw [solutionReadHardError, hfst]
    rw [Bool.not_eq_false']
    by_contra hany
    rw [Bool.not_eq_true] at hany
    apply hprod
    rw [addMeshDatasets, addMeshDatasets_foldl_snd_of_none _ _ hany]

/-- C2 (witness): the amended theorem applied to a batch holding one
unrecognized file and one recognized file that produced a dataset. -/
theorem c2_witness :
    (addMeshDatasets
        [⟨true, false, .unrecognized, []⟩,
         ⟨true, false, .recognizedScalar, [[0], [1, 1], [0], [1, 5]]⟩]).2 ≠ 0 ∧
    solutionReadHardError
        [⟨true, false, .unrecognized, []⟩,
         ⟨true, false, .recognizedScalar, [[0], [1, 1], [0], [1, 5]]⟩] = false := by
  have h : (addMeshDatasets
      [⟨true, false, .unrecognized, []⟩,
       ⟨true, false, .recognizedScalar, [[0], [1, 1], [0], [1, 5]]⟩]).2 ≠ 0 := by
    decide
  exact ⟨h, (c2_amended _).2 h⟩

/-! ## C3: fort.13 header validation -/

/-- C3 (counterexample): the claim requires the `NoAttributes` error whenever
the header attribute count is not positive, but the source only checks
`num_atts == 0`; a header attribute count of -1 passes validation and the
read completes successfully with no attribute parsed at all. -/
theorem c3_counterexample :
    fort13Read true [[Tok.word "g"], [Tok.num 1], [Tok.num (-1)]] 1 =
      Except.ok ⟨[], []⟩ ∧
    fort13Read true [[Tok.word "g"], [Tok.num 1], [Tok.num (-1)]] 1 ≠
      Except.error F13Err.noAttributes := by
  constructor <;> decide

/-- C3 (amended): with a supplied geometry node count, a header node count
that is not positive raises `InvalidFile`; otherwise a header node count
that differs from the geometry node count raises `NodeCountMismatch`;
otherwise a header attribute count equal to zero (and only equal to zero: a
negative count is accepted) raises `NoAttributes`.  In each case the read
aborts with the error before parsing any attribute block — the remaining
lines are arbitrary and no datasets are produced. -/
theorem c3_amended (gridLine nLine aLine : F13Line) (rest : List F13Line)
    (geomN nn na : ℤ) (tN tA : Tok)
    (hn0 : nLine.get? 0 = some tN) (hn1 : tokInt? tN = some nn)
    (ha0 : aLine.get? 0 = some tA) (ha1 : tokInt? tA = some na) :
    (nn ≤ 0 →
      fort13Read true (gridLine :: nLine :: aLine :: rest) geomN =
        Except.error F13Err.invalidFile) ∧
    (0 < nn → nn ≠ geomN →
      fort13Read true (gridLine :: nLine :: aLine :: rest) geomN =
        Except.error F13Err.nodeCountMismatch) ∧
    (0 < nn → nn = geomN → na = 0 →
      fort13Read true (gridLine :: nLine :: aLine :: rest) geomN =
        Except.error F13Err.noAttributes) := by
  have hbase :
      fort13Read true (gridLine :: nLine :: aLine :: rest) geomN =
        (if nn ≤ 0 then Except.error F13Err.invalidFile
         else if nn ≠ geomN then Except.error F13Err.nodeCountMismatch
         else if na = 0 then Except.error F13Err.noAttributes
         else
           match readAttInfo na.toNat rest [] with
           | none => Except.error F13Err.decodeError
           | some (defs, l4) =>
             match readAttValuesLoop nn.toNat defs na.toNat ⟨[], []⟩ l4 with
             | none => Except.error F13Err.decodeError
             | some st => Except.ok st) := by
    rw [fort13Read]
    simp only [Bool.not_true, readline, hn0, hn1, ha0, ha1]
    rfl
  refine ⟨?_, ?_, ?_⟩
  · intro h
    rw [hbase, if_pos h]
  · intro h0 hne
    rw [hbase, if_neg (by omega), if_pos hne]
  · intro h0 heq hz
    rw [hbase, if_neg (by omega), if_neg (by simp [heq]), if_pos hz]

/-- C3 (witness): the amended theorem applied to concrete headers exhibiting
each of the three validation errors. -/
theorem c3_witness :
    fort13Read true [[Tok.word "g"], [Tok.num 0], [Tok.num 2]] 1 =
      Except.error F13Err.invalidFile ∧
    fort13Read true [[Tok.word "g"], [Tok.num 5], [Tok.num 2]] 1 =
      Except.error F13Err.nodeCountMismatch ∧
    fort13Read true [[Tok.word "g"], [Tok.num 1], [Tok.num 0]] 1 =
      Except.error F13Err.noAttributes := by
  refine ⟨?_, ?_, ?_⟩
  · exact (c3_amended [Tok.word "g"] [Tok.num 0] [Tok.num 2] [] 1 0 2
      (Tok.num 0) (Tok.num 2) rfl (by decide) rfl (by decide)).1 (by decide)
  · exact (c3_amended [Tok.word "g"] [Tok.num 5] [Tok.num 2] [] 1 5 2
      (Tok.num 5) (Tok.num 2) rfl (by decide) rfl (by decide)).2.1 (by decide)
      (by decide)
  · exact (c3_amended [Tok.word "g"] [Tok.num 1] [Tok.num 0] [] 1 1 0
      (Tok.num 1) (Tok.num 0) rfl (by decide) rfl (by decide)).2.2 (by decide)
      rfl rfl

/-! ## C6: coordinate-system inference -/

theorem extentsFold_bounds (rest : List Pt) :
    ∀ acc : ℚ × ℚ × ℚ × ℚ,
      (-180 ≤ (rest.foldl extStep acc).1 ∧ -90 ≤ (rest.foldl extStep acc).2.1 ∧
        (rest.foldl extStep acc).2.2.1 ≤ 180 ∧
        (rest.foldl extStep acc).2.2.2 ≤ 90) ↔
      ((-180 ≤ acc.1 ∧ -90 ≤ acc.2.1 ∧ acc.2.2.1 ≤ 180 ∧ acc.2.2.2 ≤ 90) ∧
        ∀ q ∈ rest, -180 ≤ q.1 ∧ q.1 ≤ 180 ∧ -90 ≤ q.2.1 ∧ q.2.1 ≤ 90) := by
  induction rest with
  | nil => intro acc; simp
  | cons q rest ih =>
    intro acc
    rw [List.foldl_cons, ih]
    simp only [extStep, le_min_iff, max_le_iff, List.forall_mem_cons]
    tauto

theorem geoCheck_true_iff (p : Pt) (rest : List Pt) :
    geoCheck (p :: rest) = true ↔
      ∀ q ∈ p :: rest, -180 ≤ q.1 ∧ q.1 ≤ 180 ∧ -90 ≤ q.2.1 ∧ q.2.1 ≤ 90 := by
  simp only [geoCheck, meshExtents, decide_eq_true_eq]
  rw [extentsFold_bounds]
  simp only [List.forall_mem_cons]
  tauto

theorem fort14Read_wkt (fileOk : Bool) (lines : List QLine) (r : Fort14Result)
    (h : fort14Read fileOk lines = some r) :
    r.wkt =
      (if geoCheck r.points then CoordSys.geographic else CoordSys.localMeters) := by
  rw [fort14Read.eq_def] at h
  repeat' split at h
  any_goals exact Option.noConfusion h
  cases h
  rfl

/-- C6 (confirmed): when a mesh read succeeds with no externally supplied
projection hint (the standalone `Fort14Reader` has none), the returned tag is
Geographic if and only if every point of the mesh lies within
`[-180, 180] × [-90, 90]` (equivalently, the bounding extents satisfy
`min_x ≥ -180`, `max_x ≤ 180`, `min_y ≥ -90`, `max_y ≤ 90`); otherwise the
tag is Local-Meters. -/
theorem c6_geo_iff_bounds (fileOk : Bool) (lines : List QLine)
    (r : Fort14Result) (h : fort14Read fileOk lines = some r)
    (hne : r.points ≠ []) :
    (r.wkt = CoordSys.geographic ↔
      ∀ p ∈ r.points, -180 ≤ p.1 ∧ p.1 ≤ 180 ∧ -90 ≤ p.2.1 ∧ p.2.1 ≤ 90) ∧
    (r.wkt = CoordSys.geographic ∨ r.wkt = CoordSys.localMeters) := by
  have hw := fort14Read_wkt fileOk lines r h
  constructor
  · cases hp : r.points with
    | nil => exact absurd hp hne
    | cons p rest =>
      rw [hw, hp]
      by_cases hg : geoCheck (p :: rest) = true
      · simp only [hg, if_true]
        simpa using (geoCheck_true_iff p rest).mp hg
      · rw [Bool.not_eq_true] at hg
        simp only [hg, Bool.false_eq_true, if_false]
        constructor
        · intro hcon; exact absurd hcon (by simp)
        · intro hb
          exact absurd ((geoCheck_true_iff p rest).mpr hb)
            (by rw [hg]; simp)
  · rw [hw]
    by_cases hg : geoCheck r.points = true <;> simp [hg]

/-- C6 (witness): a mesh with a coordinate at 200 is tagged Local-Meters and
its points do not all lie within the geographic bounds; a mesh entirely
within the bounds is tagged Geographic. -/
theorem c6_witness :
    fort14Read true
        [[], [1, 3], [1, 200, 0, 5], [2, 0, 1, 5], [3, 1, 0, 5],
         [9, 3, 1, 2, 3]] =
      some ⟨[(200, 0, -5), (0, 1, -5), (1, 0, -5)], [(0, 1, 2)], 3, 1,
        CoordSys.localMeters⟩ ∧
    ¬(∀ p ∈ [((200 : ℚ), (0 : ℚ), (-5 : ℚ)), (0, 1, -5), (1, 0, -5)],
        -180 ≤ p.1 ∧ p.1 ≤ 180 ∧ -90 ≤ p.2.1 ∧ p.2.1 ≤ 90) ∧
    fort14Read true
        [[], [1, 3], [1, 20, 0, 5], [2, 0, 1, 5], [3, 1, 0, 5],
         [9, 3, 1, 2, 3]] =
      some ⟨[(20, 0, -5), (0, 1, -5), (1, 0, -5)], [(0, 1, 2)], 3, 1,
        CoordSys.geographic⟩ := by
  have h200 : fort14Read true
      [[], [1, 3], [1, 200, 0, 5], [2, 0, 1, 5], [3, 1, 0, 5],
       [9, 3, 1, 2, 3]] =
      some ⟨[(200, 0, -5), (0, 1, -5), (1, 0, -5)], [(0, 1, 2)], 3, 1,
        CoordSys.localMeters⟩ := by decide
  have hgeo : fort14Read true
      [[], [1, 3], [1, 20, 0, 5], [2, 0, 1, 5], [3, 1, 0, 5],
       [9, 3, 1, 2, 3]] =
      some ⟨[(20, 0, -5), (0, 1, -5), (1, 0, -5)], [(0, 1, 2)], 3, 1,
        CoordSys.geographic⟩ := by decide
  refine ⟨h200, ?_, hgeo⟩
  intro hb
  have hiff := (c6_geo_iff_bounds true _ _ h200 (by decide)).1
  have : CoordSys.localMeters = CoordSys.geographic := hiff.mpr hb
  exact absurd this (by decide)

/-! ## Node-table lemmas shared by the mesh-reader claims -/

theorem pyDictGet?_append {κ α : Type} [DecidableEq κ] (k : κ)
    (m1 m2 : List (κ × α)) :
    pyDictGet? k (m1 ++ m2) =
      match pyDictGet? k m1 with
      | some v => some v
      | none => pyDictGet? k m2 := by
  induction m1 with
  | nil => simp [pyDictGet?]
  | cons p rest ih =>
    by_cases hp : p.1 = k
    · simp [pyDictGet?, List.find?, hp]
    · simpa [pyDictGet?, List.find?, hp] using ih

theorem readNodesLoop_spec (nodes : List (ℤ × ℚ × ℚ × ℚ)) :
    ∀ (rest : List QLine) (pm : PtMap),
      (∀ nd ∈ nodes, pyDictGet? nd.1 pm = none) →
      (nodes.map Prod.fst).Nodup →
      readNodesLoop nodes.length (nodes.map mkNodeLine ++ rest) pm =
        some (pm ++ ptEntries pm.length nodes, rest) := by
  induction nodes with
  | nil =>
    intro rest pm _ _
    simp [readNodesLoop, ptEntries, List.enumFrom]
  | cons nd nds ih =>
    intro rest pm hfresh hnodup
    rw [List.map_cons, List.cons_append, List.length_cons, readNodesLoop]
    have hline : mkNodeLine nd =
        [(nd.1 : ℚ), nd.2.1, nd.2.2.1, nd.2.2.2] := rfl
    rw [hline]
    simp only [List.get?, pyInt_intCast]
    have hset : pyDictSet nd.1 ((nd.2.1, nd.2.2.1, -nd.2.2.2), pm.length) pm =
        pm ++ [(nd.1, ((nd.2.1, nd.2.2.1, -nd.2.2.2), pm.length))] :=
      pyDictSet_of_get?_none _ (hfresh nd (List.mem_cons_self _ _))
    rw [List.map_cons, List.nodup_cons] at hnodup
    have hfresh2 : ∀ nd' ∈ nds,
        pyDictGet? nd'.1
          (pm ++ [(nd.1, ((nd.2.1, nd.2.2.1, -nd.2.2.2), pm.length))]) =
          none := by
      intro nd' hmem
      rw [pyDictGet?_append, hfresh nd' (List.mem_cons_of_mem _ hmem)]
      have hne : nd.1 ≠ nd'.1 := by
        intro hc
        exact hnodup.1 (hc ▸ List.mem_map_of_mem Prod.fst hmem)
      simp [pyDictGet?, List.find?, hne]
    have := ih rest
      (pm ++ [(nd.1, ((nd.2.1, nd.2.2.1, -nd.2.2.2), pm.length))])
      hfresh2 hnodup.2
    rw [hset, this]
    congr 2
    rw [List.length_append, List.length_singleton]
    have hcons : ptEntries pm.length (nd :: nds) =
        (nd.1, ((nd.2.1, nd.2.2.1, -nd.2.2.2), pm.length)) ::
          ptEntries (pm.length + 1) nds := rfl
    rw [hcons, List.append_assoc, List.singleton_append]

theorem pyDictGet?_ptEntries (nodes : List (ℤ × ℚ × ℚ × ℚ)) :
    ∀ (start : ℕ), (nodes.map Prod.fst).Nodup →
      ∀ (i : ℕ) (nd : ℤ × ℚ × ℚ × ℚ), nodes.get? i = some nd →
        pyDictGet? nd.1 (ptEntries start nodes) =
          some ((nd.2.1, nd.2.2.1, -nd.2.2.2), start + i) := by
  induction nodes with
  | nil => intro start _ i nd h; exact Option.noConfusion h
  | cons hd nds ih =>
    intro start hnodup i nd hget
    rw [List.map_cons, List.nodup_cons] at hnodup
    cases i with
    | zero =>
      rw [List.get?] at hget
      cases hget
      have hcons : ptEntries start (hd :: nds) =
          (hd.1, ((hd.2.1, hd.2.2.1, -hd.2.2.2), start)) ::
            ptEntries (start + 1) nds := rfl
      rw [hcons]
      simp [pyDictGet?, List.find?]
    | succ i =>
      rw [List.get?] at hget
      have hmem : nd ∈ nds := List.get?_mem hget
      have hne : hd.1 ≠ nd.1 := by
        intro hc
        exact hnodup.1 (hc ▸ List.mem_map_of_mem Prod.fst hmem)
      have hcons : ptEntries start (hd :: nds) =
          (hd.1, ((hd.2.1, hd.2.2.1, -hd.2.2.2), start)) ::
            ptEntries (start + 1) nds := rfl
      rw [hcons]
      have hrec := ih (start + 1) hnodup.2 i nd hget
      simp only [pyDictGet?, List.find?] at hrec ⊢
      rw [decide_eq_false hne]
      have harith : start + 1 + i = start + (i + 1) := by omega
      rw [← harith]
      exact hrec

/-! ## C10: point-index assignment in the mesh node table -/

/-- C10 (confirmed): the mesh reader assigns each node the current size of
the point-ID map as its 0-based array index.  With pairwise distinct file
point IDs the i-th node line receives index i and the final point map (hence
the point list) has exactly the header's node count of entries; with a
repeated file point ID the earlier map entry is overwritten and receives an
index equal to the map size at that moment, which can reach the final point
count — an out-of-range index, as the concrete second part shows (IDs
`1, 2, 1` produce 2 points while ID 1 is assigned index 2). -/
theorem c10_index_assignment :
    (∀ (nodes : List (ℤ × ℚ × ℚ × ℚ)) (rest : List QLine),
      (nodes.map Prod.fst).Nodup →
      ∃ pm, readNodesLoop nodes.length (nodes.map mkNodeLine ++ rest) [] =
          some (pm, rest) ∧
        pm.length = nodes.length ∧
        ∀ (i : ℕ) (nd : ℤ × ℚ × ℚ × ℚ), nodes.get? i = some nd →
          pyDictGet? nd.1 pm = some ((nd.2.1, nd.2.2.1, -nd.2.2.2), i)) ∧
    (readNodesLoop 3 [[1, 0, 0, 0], [2, 0, 0, 0], [1, 9, 9, 9]] [] =
        some ([(1, ((9, 9, -9), 2)), (2, ((0, 0, 0), 1))], []) ∧
      ([((1 : ℤ), (((9 : ℚ), (9 : ℚ), (-9 : ℚ)), (2 : ℕ))),
        (2, ((0, 0, 0), 1))] : PtMap).length = 2 ∧
      pyDictGet? 1
          ([((1 : ℤ), (((9 : ℚ), (9 : ℚ), (-9 : ℚ)), (2 : ℕ))),
            (2, ((0, 0, 0), 1))] : PtMap) = some ((9, 9, -9), 2) ∧
      ¬((2 : ℕ) < 2)) := by
  constructor
  · intro nodes rest hnodup
    refine ⟨ptEntries 0 nodes, ?_, ?_, ?_⟩
    · simpa using readNodesLoop_spec nodes rest [] (by simp [pyDictGet?]) hnodup
    · simp [ptEntries, List.enumFrom_length]
    · intro i nd hget
      simpa using pyDictGet?_ptEntries nodes 0 hnodup i nd hget
  · refine ⟨by rfl, by rfl, by rfl, by decide⟩

/-- C10 (witness): the general part applied to a concrete two-node table
with distinct file IDs 7 and 4. -/
theorem c10_witness :
    ∃ pm, readNodesLoop 2
        [[7, 1, 2, 3], [4, 5, 6, 7]] [] = some (pm, []) ∧
      pm.length = 2 ∧
      pyDictGet? 7 pm = some ((1, 2, -3), 0) ∧
      pyDictGet? 4 pm = some ((5, 6, -7), 1) := by
  obtain ⟨pm, hrun, hlen, hget⟩ :=
    c10_index_assignment.1 [(7, 1, 2, 3), (4, 5, 6, 7)] [] (by decide)
  refine ⟨pm, ?_, hlen, ?_, ?_⟩
  · simpa [mkNodeLine] using hrun
  · exact hget 0 (7, 1, 2, 3) rfl
  · exact hget 1 (4, 5, 6, 7) rfl

/-! ## C5: mesh structure -/

theorem pyDictGet?_eq_none_iff {κ α : Type} [DecidableEq κ] (k : κ)
    (m : List (κ × α)) :
    pyDictGet? k m = none ↔ k ∉ m.map Prod.fst := by
  induction m with
  | nil => simp [pyDictGet?]
  | cons p rest ih =>
    by_cases hp : p.1 = k
    · simp [pyDictGet?, List.find?, hp]
    · simp only [pyDictGet?, List.find?, decide_eq_false hp] at ih ⊢
      simp [ih, Ne.symm hp]

theorem ptEntries_keys (nodes : List (ℤ × ℚ × ℚ × ℚ)) :
    ∀ start, (ptEntries start nodes).map Prod.fst = nodes.map Prod.fst := by
  induction nodes with
  | nil => intro start; rfl
  | cons nd nds ih =>
    intro start
    have hcons : ptEntries start (nd :: nds) =
        (nd.1, ((nd.2.1, nd.2.2.1, -nd.2.2.2), start)) ::
          ptEntries (start + 1) nds := rfl
    rw [hcons, List.map_cons, List.map_cons, ih]

theorem ptEntries_points (nodes : List (ℤ × ℚ × ℚ × ℚ)) :
    ∀ start, (ptEntries start nodes).map (fun e => e.2.1) =
      nodes.map (fun nd => (nd.2.1, nd.2.2.1, -nd.2.2.2)) := by
  induction nodes with
  | nil => intro start; rfl
  | cons nd nds ih =>
    intro start
    have hcons : ptEntries start (nd :: nds) =
        (nd.1, ((nd.2.1, nd.2.2.1, -nd.2.2.2), start)) ::
          ptEntries (start + 1) nds := rfl
    rw [hcons, List.map_cons, List.map_cons, ih]

theorem ptEntries_index_lt (nodes : List (ℤ × ℚ × ℚ × ℚ)) :
    ∀ (start : ℕ) (k : ℤ) (pd : Pt × ℕ),
      pyDictGet? k (ptEntries start nodes) = some pd →
      pd.2 < start + nodes.length := by
  induction nodes with
  | nil => intro start k pd h; simp [ptEntries, pyDictGet?] at h
  | cons nd nds ih =>
    intro start k pd h
    have hcons : ptEntries start (nd :: nds) =
        (nd.1, ((nd.2.1, nd.2.2.1, -nd.2.2.2), start)) ::
          ptEntries (start + 1) nds := rfl
    rw [hcons] at h
    simp only [pyDictGet?, List.find?] at h
    by_cases hk : nd.1 = k
    · rw [decide_eq_true hk] at h
      simp only [Option.map_some'] at h
      cases h
      simp
    · rw [decide_eq_false hk] at h
      have := ih (start + 1) k pd (by simpa [pyDictGet?] using h)
      simp only [List.length_cons]
      omega

theorem getCellStreamVals_mk (pm : PtMap) (c : ℤ × ℤ × ℤ) :
    getCellStreamVals pm (mkCellLine c) =
      match pyDictGet? c.1 pm, pyDictGet? c.2.1 pm, pyDictGet? c.2.2 pm with
      | some d1, some d2, some d3 => some (d1.2, d2.2, d3.2)
      | _, _, _ => none := by
  have h2 : (mkCellLine c).get? 2 = some ((c.1 : ℚ)) := rfl
  have h3 : (mkCellLine c).get? 3 = some ((c.2.1 : ℚ)) := rfl
  have h4 : (mkCellLine c).get? 4 = some ((c.2.2 : ℚ)) := rfl
  rw [getCellStreamVals, h2, h3, h4]
  simp only [pyInt_intCast]

theorem readCellsLoop_spec (pm : PtMap) (numPts : ℕ)
    (hsize : ∀ (k : ℤ) (pd : Pt × ℕ), pyDictGet? k pm = some pd →
      pd.2 < numPts) (cells : List (ℤ × ℤ × ℤ)) :
    ∀ (rest : List QLine) (acc : List (ℕ × ℕ × ℕ)),
      (∀ c ∈ cells, (pyDictGet? c.1 pm).isSome ∧
        (pyDictGet? c.2.1 pm).isSome ∧ (pyDictGet? c.2.2 pm).isSome) →
      ∃ tris,
        readCellsLoop pm cells.length (cells.map mkCellLine ++ rest) acc =
          some (acc ++ tris, rest) ∧
        tris.length = cells.length ∧
        ∀ t ∈ tris, t.1 < numPts ∧ t.2.1 < numPts ∧ t.2.2 < numPts := by
  induction cells with
  | nil =>
    intro rest acc _
    exact ⟨[], by simp [readCellsLoop], rfl, by simp⟩
  | cons c cs ih =>
    intro rest acc hmem
    obtain ⟨h1, h2, h3⟩ := hmem c (List.mem_cons_self _ _)
    obtain ⟨d1, hd1⟩ := Option.isSome_iff_exists.mp h1
    obtain ⟨d2, hd2⟩ := Option.isSome_iff_exists.mp h2
    obtain ⟨d3, hd3⟩ := Option.isSome_iff_exists.mp h3
    rw [List.map_cons, List.cons_append, List.length_cons, readCellsLoop,
      getCellStreamVals_mk, hd1, hd2, hd3]
    dsimp only
    obtain ⟨tris, hrun, hlen, hbound⟩ :=
      ih rest (acc ++ [(d1.2, d2.2, d3.2)])
        (fun c' hc' => hmem c' (List.mem_cons_of_mem _ hc'))
    refine ⟨(d1.2, d2.2, d3.2) :: tris, ?_, by simp [hlen], ?_⟩
    · rw [hrun, List.append_assoc, List.singleton_append]
    · intro t ht
      rcases List.mem_cons.mp ht with rfl | ht'
      · exact ⟨hsize _ _ hd1, hsize _ _ hd2, hsize _ _ hd3⟩
      · exact hbound t ht'

theorem getCellStreamVals_mk_none (pm : PtMap) (c : ℤ × ℤ × ℤ)
    (h : pyDictGet? c.1 pm = none ∨ pyDictGet? c.2.1 pm = none ∨
      pyDictGet? c.2.2 pm = none) :
    getCellStreamVals pm (mkCellLine c) = none := by
  rw [getCellStreamVals_mk]
  rcases h with h | h | h
  · rw [h]
  · rcases h1 : pyDictGet? c.1 pm with _ | d1
    · rfl
    · rw [h]
  · rcases h1 : pyDictGet? c.1 pm with _ | d1
    · rfl
    · rcases h2 : pyDictGet? c.2.1 pm with _ | d2
      · rfl
      · rw [h]

theorem readCellsLoop_fail (pm : PtMap) (cells : List (ℤ × ℤ × ℤ)) :
    ∀ (rest : List QLine) (acc : List (ℕ × ℕ × ℕ)),
      (∃ c ∈ cells, pyDictGet? c.1 pm = none ∨
        pyDictGet? c.2.1 pm = none ∨ pyDictGet? c.2.2 pm = none) →
      readCellsLoop pm cells.length (cells.map mkCellLine ++ rest) acc =
        none := by
  induction cells with
  | nil => intro rest acc h; simp at h
  | cons c cs ih =>
    intro rest acc hbad
    rw [List.map_cons, List.cons_append, List.length_cons, readCellsLoop]
    obtain ⟨c', hc', hor⟩ := hbad
    rcases List.mem_cons.mp hc' with rfl | hmem
    · rw [getCellStreamVals_mk_none pm c' hor]
    · rcases hsome : getCellStreamVals pm (mkCellLine c) with _ | cell
      · rfl
      · dsimp only
        exact ih rest (acc ++ [cell]) ⟨c', hmem, hor⟩

theorem fort14Read_unfold (nameLine : QLine) (body : List QLine)
    (numCells numNodes : ℕ) :
    fort14Read true
        (nameLine :: [(numCells : ℚ), (numNodes : ℚ)] :: body) =
      match readNodesLoop numNodes body [] with
      | some (pm, body2) =>
        match readCellsLoop pm numCells body2 [] with
        | some (cellsRead, _) =>
          some ⟨pm.map (fun e => e.2.1), cellsRead, (numNodes : ℤ),
            (numCells : ℤ),
            if geoCheck (pm.map (fun e => e.2.1)) then CoordSys.geographic
            else CoordSys.localMeters⟩
        | none => none
      | none => none := by
  rw [fort14Read.eq_def]
  have hg0 : ([(numCells : ℚ), (numNodes : ℚ)] : QLine).get? 0 =
      some (numCells : ℚ) := rfl
  have hg1 : ([(numCells : ℚ), (numNodes : ℚ)] : QLine).get? 1 =
      some (numNodes : ℚ) := rfl
  simp only [Bool.not_true, Bool.false_eq_true, if_false, hg0, hg1,
    pyInt_natCast, Int.toNat_natCast]

/-- C5 (confirmed): for a well-formed mesh file (header counts matching the
records, pairwise distinct file point IDs, every cell referencing defined
point IDs) the read succeeds with point count equal to the header node
count, cell count equal to the header cell count, every cell a triple of
valid 0-based point indices, and every point's z equal to the negated file
depth; and any cell line referencing a file point ID absent from the node
table makes the read fail with no partial mesh. -/
theorem c5_mesh_structure :
    (∀ (nameLine : QLine) (nodes : List (ℤ × ℚ × ℚ × ℚ))
      (cells : List (ℤ × ℤ × ℤ)),
      (nodes.map Prod.fst).Nodup →
      (∀ c ∈ cells, c.1 ∈ nodes.map Prod.fst ∧
        c.2.1 ∈ nodes.map Prod.fst ∧ c.2.2 ∈ nodes.map Prod.fst) →
      ∃ r, fort14Read true
          (nameLine :: [(cells.length : ℚ), (nodes.length : ℚ)] ::
            (nodes.map mkNodeLine ++ cells.map mkCellLine)) = some r ∧
        r.points.length = nodes.length ∧
        r.numNodes = (nodes.length : ℤ) ∧
        r.cells.length = cells.length ∧
        r.numCells = (cells.length : ℤ) ∧
        (∀ t ∈ r.cells, t.1 < r.points.length ∧ t.2.1 < r.points.length ∧
          t.2.2 < r.points.length) ∧
        (∀ (i : ℕ) (nd : ℤ × ℚ × ℚ × ℚ), nodes.get? i = some nd →
          r.points.get? i = some (nd.2.1, nd.2.2.1, -nd.2.2.2))) ∧
    (∀ (nameLine : QLine) (nodes : List (ℤ × ℚ × ℚ × ℚ))
      (cells : List (ℤ × ℤ × ℤ)),
      (nodes.map Prod.fst).Nodup →
      (∃ c ∈ cells, c.1 ∉ nodes.map Prod.fst ∨
        c.2.1 ∉ nodes.map Prod.fst ∨ c.2.2 ∉ nodes.map Prod.fst) →
      fort14Read true
          (nameLine :: [(cells.length : ℚ), (nodes.length : ℚ)] ::
            (nodes.map mkNodeLine ++ cells.map mkCellLine)) = none) := by
  constructor
  · intro nameLine nodes cells hnodup hcells
    rw [fort14Read_unfold]
    rw [readNodesLoop_spec nodes (cells.map mkCellLine) []
      (by simp [pyDictGet?]) hnodup]
    simp only [List.nil_append, List.length_nil]
    have hkeys := ptEntries_keys nodes 0
    obtain ⟨tris, hrun, hlen, hbound⟩ :=
      readCellsLoop_spec (ptEntries 0 nodes) nodes.length
        (fun k pd h => by simpa using ptEntries_index_lt nodes 0 k pd h)
        cells [] []
        (by
          intro c hc
          obtain ⟨h1, h2, h3⟩ := hcells c hc
          refine ⟨?_, ?_, ?_⟩ <;>
            rw [← Option.ne_none_iff_isSome, Ne, pyDictGet?_eq_none_iff,
              hkeys]
          · exact not_not_intro h1
          · exact not_not_intro h2
          · exact not_not_intro h3)
    rw [show cells.map mkCellLine ++ [] = cells.map mkCellLine from by simp,
      List.nil_append] at hrun
    rw [hrun]
    dsimp only
    refine ⟨_, rfl, ?_, rfl, ?_, rfl, ?_, ?_⟩
    · simp [ptEntries_points, List.enumFrom_length, ptEntries]
    · simpa using hlen
    · intro t ht
      have hplen : ((ptEntries 0 nodes).map (fun e => e.2.1)).length =
          nodes.length := by
        simp [ptEntries, List.enumFrom_length]
      rw [hplen]
      exact hbound t (by simpa using ht)
    · intro i nd hget
      show ((ptEntries 0 nodes).map (fun e => e.2.1)).get? i =
        some (nd.2.1, nd.2.2.1, -nd.2.2.2)
      rw [ptEntries_points, List.get?_map, hget, Option.map_some']
  · intro nameLine nodes cells hnodup hbad
    rw [fort14Read_unfold]
    rw [readNodesLoop_spec nodes (cells.map mkCellLine) []
      (by simp [pyDictGet?]) hnodup]
    have hkeys := ptEntries_keys nodes 0
    have hfail := readCellsLoop_fail (ptEntries 0 nodes) cells [] []
      (by
        obtain ⟨c, hc, hor⟩ := hbad
        refine ⟨c, hc, ?_⟩
        rcases hor with h | h | h
        · exact Or.inl (by rw [pyDictGet?_eq_none_iff, hkeys]; exact h)
        · exact Or.inr (Or.inl (by rw [pyDictGet?_eq_none_iff, hkeys]; exact h))
        · exact Or.inr (Or.inr (by rw [pyDictGet?_eq_none_iff, hkeys]; exact h)))
    rw [show cells.map mkCellLine ++ [] = cells.map mkCellLine from by simp]
      at hfail
    simp only [List.nil_append, List.length_nil]
    rw [hfail]

/-- C5 (witness): the structural part applied to a concrete 3-node 1-triangle
mesh, and the hard-error part applied to the same mesh with a cell
referencing the undefined point ID 7. -/
theorem c5_witness :
    (∃ r, fort14Read true
        ([] :: [(1 : ℚ), (3 : ℚ)] ::
          ([(7, 1, 2, 3), (4, 5, 6, 7), ((5 : ℤ), (0 : ℚ), (0 : ℚ), (1 : ℚ))].map
              mkNodeLine ++
            [((7 : ℤ), (4 : ℤ), (5 : ℤ))].map mkCellLine)) = some r ∧
      r.points.length = 3 ∧ r.cells.length = 1) ∧
    fort14Read true
        ([] :: [(1 : ℚ), (3 : ℚ)] ::
          ([(7, 1, 2, 3), (4, 5, 6, 7), ((5 : ℤ), (0 : ℚ), (0 : ℚ), (1 : ℚ))].map
              mkNodeLine ++
            [((7 : ℤ), (4 : ℤ), (9 : ℤ))].map mkCellLine)) = none := by
  constructor
  · obtain ⟨r, hread, hpts, _, hcells, _, _, _⟩ :=
      c5_mesh_structure.1 []
        [(7, 1, 2, 3), (4, 5, 6, 7), ((5 : ℤ), (0 : ℚ), (0 : ℚ), (1 : ℚ))]
        [((7 : ℤ), (4 : ℤ), (5 : ℤ))] (by decide) (by decide)
    exact ⟨r, hread, hpts, hcells⟩
  · exact c5_mesh_structure.2 []
      [(7, 1, 2, 3), (4, 5, 6, 7), ((5 : ℤ), (0 : ℚ), (0 : ℚ), (1 : ℚ))]
      [((7 : ℤ), (4 : ℤ), (9 : ℤ))] (by decide) ⟨(7, 4, 9), by decide, by decide⟩

/-! ## C7: sparse ASCII scalar timesteps -/

theorem readTsValuesScalar_sparse (pairs : List (ℤ × ℚ)) :
    ∀ (j : ℕ) (vals : List ℚ) (rest : List QLine),
      (∀ p ∈ pairs, 1 ≤ p.1 ∧ p.1 ≤ (vals.length : ℤ)) →
      readTsValuesScalar true j pairs.length vals
          (pairs.map mkSparsePairLine ++ rest) =
        some (some (applyPairs vals pairs), rest) := by
  induction pairs with
  | nil =>
    intro j vals rest _
    simp [readTsValuesScalar, applyPairs]
  | cons p ps ih =>
    intro j vals rest hmem
    obtain ⟨hp1, hp2⟩ := hmem p (List.mem_cons_self _ _)
    rw [List.map_cons, List.cons_append, List.length_cons,
      readTsValuesScalar]
    have hne : mkSparsePairLine p ≠ [] := by simp [mkSparsePairLine]
    rw [if_neg hne, if_pos rfl]
    have hg0 : (mkSparsePairLine p).get? 0 = some ((p.1 : ℚ)) := rfl
    have hg1 : (mkSparsePairLine p).get? 1 = some p.2 := rfl
    rw [hg0, hg1]
    simp only [pyInt_intCast]
    rw [pySet_of_nonneg p.2 (by omega) (by omega)]
    dsimp only
    have hlen : (vals.set (p.1 - 1).toNat p.2).length = vals.length :=
      List.length_set vals _ _
    rw [ih (j + 1) (vals.set (p.1 - 1).toNat p.2) rest
      (by intro q hq; rw [hlen]; exact hmem q (List.mem_cons_of_mem _ hq))]
    rfl

theorem applyPairs_cons (vals : List ℚ) (p : ℤ × ℚ) (ps : List (ℤ × ℚ)) :
    applyPairs vals (p :: ps) = applyPairs (vals.set (p.1 - 1).toNat p.2) ps :=
  rfl

theorem applyPairs_length (pairs : List (ℤ × ℚ)) :
    ∀ vals : List ℚ, (applyPairs vals pairs).length = vals.length := by
  induction pairs with
  | nil => intro vals; rfl
  | cons p ps ih =>
    intro vals
    rw [applyPairs_cons, ih, List.length_set]

theorem applyPairs_get_untouched (pairs : List (ℤ × ℚ)) :
    ∀ (vals : List ℚ) (i : ℕ),
      (∀ p ∈ pairs, 1 ≤ p.1) → (∀ p ∈ pairs, p.1 ≠ (i : ℤ) + 1) →
      (applyPairs vals pairs).get? i = vals.get? i := by
  induction pairs with
  | nil => intro vals i _ _; rfl
  | cons p ps ih =>
    intro vals i h1 h2
    rw [applyPairs_cons,
      ih _ i (fun q hq => h1 q (List.mem_cons_of_mem _ hq))
        (fun q hq => h2 q (List.mem_cons_of_mem _ hq))]
    have hp1 := h1 p (List.mem_cons_self _ _)
    have hp2 := h2 p (List.mem_cons_self _ _)
    have hne : (p.1 - 1).toNat ≠ i := by omega
    rw [List.get?_eq_getElem?, List.get?_eq_getElem?,
      List.getElem?_set_ne hne]

theorem applyPairs_get_of_mem (pairs : List (ℤ × ℚ)) :
    ∀ (vals : List ℚ),
      (∀ p ∈ pairs, 1 ≤ p.1 ∧ p.1 ≤ (vals.length : ℤ)) →
      (pairs.map Prod.fst).Nodup →
      ∀ p ∈ pairs, (applyPairs vals pairs).get? (p.1 - 1).toNat = some p.2 := by
  induction pairs with
  | nil => intro vals _ _ p hp; exact absurd hp (List.not_mem_nil p)
  | cons q ps ih =>
    intro vals hbnd hnodup p hp
    rw [List.map_cons, List.nodup_cons] at hnodup
    obtain ⟨hq1, hq2⟩ := hbnd q (List.mem_cons_self _ _)
    rcases List.mem_cons.mp hp with rfl | hmem
    · rw [applyPairs_cons]
      rw [applyPairs_get_untouched ps _ _
        (fun e he => (hbnd e (List.mem_cons_of_mem _ he)).1)
        (by
          intro e he hc
          apply hnodup.1
          have : e.1 = p.1 := by omega
          exact this ▸ List.mem_map_of_mem Prod.fst he)]
      rw [List.get?_eq_getElem?,
        List.getElem?_set_eq_of_lt p.2 (by omega)]
    · rw [applyPairs_cons]
      exact ih (vals.set (q.1 - 1).toNat q.2)
        (by
          intro e he
          rw [List.length_set]
          exact hbnd e (List.mem_cons_of_mem _ he))
        hnodup.2 p hmem

/-- C7 (confirmed): an ASCII scalar timestep whose header line carries extra
tokens (a sparse record with explicit count and default) decodes to a value
array of length `node_count` in which every listed `(node_id, value)` pair
lands at 0-based index `node_id - 1` and every unlisted node receives the
default. -/
theorem c7_sparse_decode (descLine : QLine) (numNodes : ℕ) (t x d : ℚ)
    (pairs : List (ℤ × ℚ))
    (hbnd : ∀ p ∈ pairs, 1 ≤ p.1 ∧ p.1 ≤ (numNodes : ℤ))
    (hnodup : (pairs.map Prod.fst).Nodup) :
    ∃ vals,
      readAsciiScalars
          (descLine :: [(1 : ℚ), (numNodes : ℚ)] ::
            (([t, x, (pairs.length : ℚ), d] : QLine) ::
              pairs.map mkSparsePairLine)) =
        some [(t, vals)] ∧
      vals.length = numNodes ∧
      (∀ p ∈ pairs, vals.get? (p.1 - 1).toNat = some p.2) ∧
      (∀ i : ℕ, i < numNodes → (∀ p ∈ pairs, p.1 ≠ (i : ℤ) + 1) →
        vals.get? i = some d) := by
  refine ⟨applyPairs (List.replicate numNodes d) pairs, ?_, ?_, ?_, ?_⟩
  · rw [readAsciiScalars]
    have hg0 : (([(1 : ℚ), (numNodes : ℚ)]) : QLine).get? 0 =
        some (1 : ℚ) := rfl
    have hg1 : (([(1 : ℚ), (numNodes : ℚ)]) : QLine).get? 1 =
        some ((numNodes : ℚ)) := rfl
    rw [hg0, hg1]
    dsimp only
    have h1 : pyInt (1 : ℚ) = some 1 := by decide
    rw [h1, pyInt_natCast]
    dsimp only
    show readAsciiScalarsLoop (numNodes : ℤ) 1 _ [] = _
    rw [readAsciiScalarsLoop]
    have hne : ([t, x, (pairs.length : ℚ), d] : QLine) ≠ [] := by simp
    rw [if_neg hne]
    have hlen4 : 3 < ([t, x, (pairs.length : ℚ), d] : QLine).length := by
      simp
    rw [if_pos hlen4]
    have hg2 : (([t, x, (pairs.length : ℚ), d]) : QLine).get? 2 =
        some ((pairs.length : ℚ)) := rfl
    have hg3 : (([t, x, (pairs.length : ℚ), d]) : QLine).get? 3 = some d :=
      rfl
    rw [hg2, hg3]
    dsimp only
    rw [pyInt_natCast]
    dsimp only
    simp only [Int.toNat_natCast]
    have := readTsValuesScalar_sparse pairs 0
      (List.replicate ((numNodes : ℤ)).toNat d) []
      (by
        intro p hp
        rw [List.length_replicate, Int.toNat_natCast]
        exact hbnd p hp)
    rw [List.append_nil] at this
    simp only [Int.toNat_natCast] at this
    rw [this]
    dsimp only
    rw [readAsciiScalarsLoop]
    simp
  · rw [applyPairs_length, List.length_replicate]
  · intro p hp
    apply applyPairs_get_of_mem pairs (List.replicate numNodes d)
      (by
        intro e he
        rw [List.length_replicate]
        exact hbnd e he)
      hnodup p hp
  · intro i hi hunt
    rw [applyPairs_get_untouched pairs _ i
      (fun p hp => (hbnd p hp).1) hunt]
    rw [List.get?_eq_getElem?, List.getElem?_replicate, if_pos hi]

/-- C7 (witness): scenario C — `timestep_count=1, node_count=3`, sparse
record `(sparse_count=1, default=0.0)` listing `(node_id=2, value=7.5)`
yields the values `[0.0, 7.5, 0.0]`. -/
theorem c7_witness :
    ∃ vals,
      readAsciiScalars
          ([9] :: [(1 : ℚ), ((3 : ℕ) : ℚ)] ::
            (([2, 9, ((1 : ℕ) : ℚ), 0] : QLine) ::
              [((2 : ℤ), (⟨15, 2, by decide, by decide⟩ : ℚ))].map
                mkSparsePairLine)) =
        some [(2, vals)] ∧
      vals.length = 3 ∧
      vals.get? 1 = some (⟨15, 2, by decide, by decide⟩ : ℚ) ∧
      vals.get? 0 = some 0 ∧ vals.get? 2 = some 0 := by
  obtain ⟨vals, hread, hlen, hmem, hunt⟩ :=
    c7_sparse_decode [9] 3 2 9 0
      [((2 : ℤ), (⟨15, 2, by decide, by decide⟩ : ℚ))]
      (by decide) (by decide)
  refine ⟨vals, hread, hlen, ?_, ?_, ?_⟩
  · simpa using hmem _ (List.mem_cons_self _ _)
  · exact hunt 0 (by omega) (by decide)
  · exact hunt 2 (by omega) (by decide)

/-! ## C8: truncated timesteps -/

theorem readTsValuesScalar_dense (vs : List ℚ) :
    ∀ (pre suffix : List ℚ) (rest : List QLine),
      suffix.length = vs.length →
      readTsValuesScalar false pre.length vs.length (pre ++ suffix)
          (vs.map (fun v => [0, v]) ++ rest) =
        some (some (pre ++ vs), rest) := by
  induction vs with
  | nil =>
    intro pre suffix rest hlen
    rw [List.length_eq_zero.mp hlen]
    simp [readTsValuesScalar]
  | cons v vs ih =>
    intro pre suffix rest hlen
    rcases suffix with _ | ⟨s0, suffix'⟩
    · exact absurd hlen.symm (by simp)
    · rw [List.map_cons, List.cons_append, List.length_cons,
        readTsValuesScalar]
      rw [if_neg (by simp)]
      simp only [Bool.false_eq_true, if_false]
      have hg1 : (([0, v]) : QLine).get? 1 = some v := rfl
      rw [hg1]
      dsimp only
      have hset : pySet (pre ++ s0 :: suffix') ((pre.length : ℕ) : ℤ) v =
          some ((pre ++ [v]) ++ suffix') := by
        rw [pySet_of_nonneg v (by omega) (by simp)]
        congr 1
        rw [Int.toNat_natCast, List.set_append]
        simp
      rw [hset]
      dsimp only
      have := ih (pre ++ [v]) suffix' rest (by simpa using hlen)
      rw [List.length_append, List.length_singleton] at this
      rw [this, List.append_assoc, List.singleton_append]

theorem readTsValuesScalar_truncated (vs : List ℚ) :
    ∀ (count : ℕ) (j : ℕ) (vals : List ℚ),
      vs.length < count → j + count = vals.length →
      readTsValuesScalar false j count vals (vs.map (fun v => [0, v])) =
        some (none, []) := by
  induction vs with
  | nil =>
    intro count j vals hlt _
    rcases count with _ | n
    · omega
    · rfl
  | cons v vs ih =>
    intro count j vals hlt hlen
    rw [List.length_cons] at hlt
    rcases count with _ | n
    · omega
    · rw [List.map_cons, readTsValuesScalar]
      rw [if_neg (by simp)]
      simp only [Bool.false_eq_true, if_false]
      have hg1 : (([0, v]) : QLine).get? 1 = some v := rfl
      rw [hg1]
      dsimp only
      rw [pySet_of_nonneg v (by omega) (by omega)]
      dsimp only
      apply ih n (j + 1) (vals.set j v)
      · omega
      · rw [List.length_set]; omega

theorem readAsciiScalarsLoop_blocks (blocks : List (ℚ × List ℚ))
    (nn : ℕ) :
    ∀ (n : ℕ) (tail : List QLine) (acc : List (ℚ × List ℚ)),
      (∀ b ∈ blocks, b.2.length = nn) →
      blocks.length ≤ n →
      readAsciiScalarsLoop (nn : ℤ) n
          ((blocks.map mkDenseScalarBlock).flatten ++ tail) acc =
        readAsciiScalarsLoop (nn : ℤ) (n - blocks.length) tail
          (acc ++ blocks) := by
  induction blocks with
  | nil => intro n tail acc _ _; simp
  | cons b bs ih =>
    intro n tail acc hlen hle
    rcases n with _ | m
    · simp at hle
    · rw [List.map_cons, List.flatten_cons]
      rw [show mkDenseScalarBlock b = [b.1] :: b.2.map (fun v => [0, v])
        from rfl]
      rw [List.cons_append, List.cons_append, List.append_assoc]
      rw [readAsciiScalarsLoop]
      rw [if_neg (by simp)]
      have h3 : ¬(3 < ([b.1] : QLine).length) := by simp
      rw [if_neg h3]
      have hdense := readTsValuesScalar_dense b.2 []
        (List.replicate ((nn : ℤ)).toNat 0)
        ((bs.map mkDenseScalarBlock).flatten ++ tail)
        (by
          rw [List.length_replicate, Int.toNat_natCast]
          exact (hlen b (List.mem_cons_self _ _)).symm)
      rw [List.nil_append, List.length_nil] at hdense
      rw [show b.2.length = ((nn : ℤ)).toNat from by
        rw [Int.toNat_natCast]; exact hlen b (List.mem_cons_self _ _)]
        at hdense
      rw [hdense]
      dsimp only
      have hrec := ih m tail (acc ++ [(([b.1] : QLine).headD 0, b.2)])
        (fun e he => hlen e (List.mem_cons_of_mem _ he))
        (by simp only [List.length_cons] at hle; omega)
      rw [List.nil_append, hrec]
      have hhd : (([b.1] : QLine).headD 0, b.2) = b := rfl
      rw [hhd, List.length_cons]
      congr 1
      · omega
      · rw [List.append_assoc, List.singleton_append]

theorem readTsValuesVector_dense (vs : List (ℚ × ℚ)) :
    ∀ (pre suffix : List (ℚ × ℚ)) (rest : List QLine),
      suffix.length = vs.length →
      readTsValuesVector false pre.length vs.length (pre ++ suffix)
          (vs.map (fun v => [0, v.1, v.2]) ++ rest) =
        some (some (pre ++ vs), rest) := by
  induction vs with
  | nil =>
    intro pre suffix rest hlen
    rw [List.length_eq_zero.mp hlen]
    simp [readTsValuesVector]
  | cons v vs ih =>
    intro pre suffix rest hlen
    rcases suffix with _ | ⟨s0, suffix'⟩
    · exact absurd hlen.symm (by simp)
    · rw [List.map_cons, List.cons_append, List.length_cons,
        readTsValuesVector]
      rw [if_neg (by simp)]
      simp only [Bool.false_eq_true, if_false]
      have hg1 : (([0, v.1, v.2]) : QLine).get? 1 = some v.1 := rfl
      have hg2 : (([0, v.1, v.2]) : QLine).get? 2 = some v.2 := rfl
      rw [hg1, hg2]
      dsimp only
      have hset : pySet (pre ++ s0 :: suffix') ((pre.length : ℕ) : ℤ)
          (v.1, v.2) = some ((pre ++ [(v.1, v.2)]) ++ suffix') := by
        rw [pySet_of_nonneg (v.1, v.2) (by omega) (by simp)]
        congr 1
        rw [Int.toNat_natCast, List.set_append]
        simp
      rw [hset]
      dsimp only
      have := ih (pre ++ [(v.1, v.2)]) suffix' rest (by simpa using hlen)
      rw [List.length_append, List.length_singleton] at this
      rw [this, List.append_assoc, List.singleton_append]

theorem readTsValuesVector_truncated (vs : List (ℚ × ℚ)) :
    ∀ (count : ℕ) (j : ℕ) (vals : List (ℚ × ℚ)),
      vs.length < count → j + count = vals.length →
      readTsValuesVector false j count vals
          (vs.map (fun v => [0, v.1, v.2])) =
        some (none, []) := by
  induction vs with
  | nil =>
    intro count j vals hlt _
    rcases count with _ | n
    · omega
    · rfl
  | cons v vs ih =>
    intro count j vals hlt hlen
    rw [List.length_cons] at hlt
    rcases count with _ | n
    · omega
    · rw [List.map_cons, readTsValuesVector]
      rw [if_neg (by simp)]
      simp only [Bool.false_eq_true, if_false]
      have hg1 : (([0, v.1, v.2]) : QLine).get? 1 = some v.1 := rfl
      have hg2 : (([0, v.1, v.2]) : QLine).get? 2 = some v.2 := rfl
      rw [hg1, hg2]
      dsimp only
      rw [pySet_of_nonneg (v.1, v.2) (by omega) (by omega)]
      dsimp only
      apply ih n (j + 1) (vals.set j (v.1, v.2))
      · omega
      · rw [List.length_set]; omega

theorem readAsciiVectorsLoop_blocks (blocks : List (ℚ × List (ℚ × ℚ)))
    (nn : ℕ) :
    ∀ (n : ℕ) (tail : List QLine) (acc : List (ℚ × List (ℚ × ℚ))),
      (∀ b ∈ blocks, b.2.length = nn) →
      blocks.length ≤ n →
      readAsciiVectorsLoop (nn : ℤ) n
          ((blocks.map mkDenseVectorBlock).flatten ++ tail) acc =
        readAsciiVectorsLoop (nn : ℤ) (n - blocks.length) tail
          (acc ++ blocks) := by
  induction blocks with
  | nil => intro n tail acc _ _; simp
  | cons b bs ih =>
    intro n tail acc hlen hle
    rcases n with _ | m
    · simp at hle
    · rw [List.map_cons, List.flatten_cons]
      rw [show mkDenseVectorBlock b = [b.1] :: b.2.map (fun v => [0, v.1, v.2])
        from rfl]
      rw [List.cons_append, List.cons_append, List.append_assoc]
      rw [readAsciiVectorsLoop]
      rw [if_neg (by simp)]
      have h3 : ¬(2 < ([b.1] : QLine).length) := by simp
      rw [if_neg h3]
      have hdense := readTsValuesVector_dense b.2 []
        (List.replicate ((nn : ℤ)).toNat (0, 0))
        ((bs.map mkDenseVectorBlock).flatten ++ tail)
        (by
          rw [List.length_replicate, Int.toNat_natCast]
          exact (hlen b (List.mem_cons_self _ _)).symm)
      rw [List.nil_append, List.length_nil] at hdense
      rw [show b.2.length = ((nn : ℤ)).toNat from by
        rw [Int.toNat_natCast]; exact hlen b (List.mem_cons_self _ _)]
        at hdense
      rw [hdense]
      dsimp only
      have hrec := ih m tail (acc ++ [(([b.1] : QLine).headD 0, b.2)])
        (fun e he => hlen e (List.mem_cons_of_mem _ he))
        (by simp only [List.length_cons] at hle; omega)
      rw [List.nil_append, hrec]
      have hhd : (([b.1] : QLine).headD 0, b.2) = b := rfl
      rw [hhd, List.length_cons]
      congr 1
      · omega
      · rw [List.append_assoc, List.singleton_append]

/-- C8 (confirmed): in an ASCII scalar or vector time-series read whose last
timestep has fewer value lines than the node count, the truncated timestep
is dropped (the result is `some`, not an error), all fully decoded timesteps
before it are kept exactly, and nothing further is decoded — even when the
header promises more timesteps. -/
theorem c8_truncation (descLine : QLine) (numTs numNodes : ℕ) :
    (∀ (blocks : List (ℚ × List ℚ)) (tPart : ℚ) (partVals : List ℚ),
      (∀ b ∈ blocks, b.2.length = numNodes) →
      partVals.length < numNodes →
      blocks.length < numTs →
      readAsciiScalars
          (descLine :: [(numTs : ℚ), (numNodes : ℚ)] ::
            ((blocks.map mkDenseScalarBlock).flatten ++
              mkDenseScalarBlock (tPart, partVals))) =
        some blocks) ∧
    (∀ (blocks : List (ℚ × List (ℚ × ℚ))) (tPart : ℚ)
      (partVals : List (ℚ × ℚ)),
      (∀ b ∈ blocks, b.2.length = numNodes) →
      partVals.length < numNodes →
      blocks.length < numTs →
      readAsciiVectors
          (descLine :: [(numTs : ℚ), (numNodes : ℚ)] ::
            ((blocks.map mkDenseVectorBlock).flatten ++
              mkDenseVectorBlock (tPart, partVals))) =
        some blocks) := by
  constructor
  · intro blocks tPart partVals hlen hpart hts
    rw [readAsciiScalars]
    have hg0 : (([(numTs : ℚ), (numNodes : ℚ)]) : QLine).get? 0 =
        some ((numTs : ℚ)) := rfl
    have hg1 : (([(numTs : ℚ), (numNodes : ℚ)]) : QLine).get? 1 =
        some ((numNodes : ℚ)) := rfl
    rw [hg0, hg1]
    dsimp only
    rw [pyInt_natCast, pyInt_natCast]
    dsimp only
    rw [Int.toNat_natCast]
    rw [readAsciiScalarsLoop_blocks blocks numNodes numTs _ [] hlen
      (le_of_lt hts)]
    rw [List.nil_append]
    have hrem : numTs - blocks.length = (numTs - blocks.length - 1) + 1 := by
      omega
    rw [hrem, mkDenseScalarBlock, readAsciiScalarsLoop]
    rw [if_neg (by simp)]
    rw [if_neg (by simp : ¬(3 < ([tPart] : QLine).length))]
    rw [readTsValuesScalar_truncated partVals ((numNodes : ℤ)).toNat 0
      (List.replicate ((numNodes : ℤ)).toNat 0)
      (by rw [Int.toNat_natCast]; exact hpart)
      (by rw [List.length_replicate]; omega)]
    dsimp only
    cases hk : numTs - blocks.length - 1 with
    | zero => rw [readAsciiScalarsLoop]
    | succ k => rw [readAsciiScalarsLoop]
  · intro blocks tPart partVals hlen hpart hts
    rw [readAsciiVectors]
    have hg0 : (([(numTs : ℚ), (numNodes : ℚ)]) : QLine).get? 0 =
        some ((numTs : ℚ)) := rfl
    have hg1 : (([(numTs : ℚ), (numNodes : ℚ)]) : QLine).get? 1 =
        some ((numNodes : ℚ)) := rfl
    rw [hg0, hg1]
    dsimp only
    rw [pyInt_natCast, pyInt_natCast]
    dsimp only
    rw [Int.toNat_natCast]
    rw [readAsciiVectorsLoop_blocks blocks numNodes numTs _ [] hlen
      (le_of_lt hts)]
    rw [List.nil_append]
    have hrem : numTs - blocks.length = (numTs - blocks.length - 1) + 1 := by
      omega
    rw [hrem, mkDenseVectorBlock, readAsciiVectorsLoop]
    rw [if_neg (by simp)]
    rw [if_neg (by simp : ¬(2 < ([tPart] : QLine).length))]
    rw [readTsValuesVector_truncated partVals ((numNodes : ℤ)).toNat 0
      (List.replicate ((numNodes : ℤ)).toNat (0, 0))
      (by rw [Int.toNat_natCast]; exact hpart)
      (by rw [List.length_replicate]; omega)]
    dsimp only
    cases hk : numTs - blocks.length - 1 with
    | zero => rw [readAsciiVectorsLoop]
    | succ k => rw [readAsciiVectorsLoop]

/-- C8 (witness): one full 2-node scalar timestep followed by a 1-line
truncated one keeps exactly the full timestep; same for vectors. -/
theorem c8_witness :
    readAsciiScalars
        ([0] :: [(2 : ℕ), ((2 : ℕ) : ℚ)] ::
          (([((10 : ℚ), [(5 : ℚ), (6 : ℚ)])].map mkDenseScalarBlock).flatten ++
            mkDenseScalarBlock (20, [7]))) =
      some [(10, [5, 6])] ∧
    readAsciiVectors
        ([0] :: [(2 : ℕ), ((2 : ℕ) : ℚ)] ::
          (([((10 : ℚ), [((5 : ℚ), (6 : ℚ)), (7, 8)])].map
              mkDenseVectorBlock).flatten ++
            mkDenseVectorBlock (20, [(9, 9)]))) =
      some [(10, [(5, 6), (7, 8)])] := by
  constructor
  · exact (c8_truncation [0] 2 2).1 [(10, [5, 6])] 20 [7]
      (by decide) (by decide) (by decide)
  · exact (c8_truncation [0] 2 2).2 [(10, [(5, 6), (7, 8)])] 20 [(9, 9)]
      (by decide) (by decide) (by decide)

/-! ## C9: levee pair symmetry -/

theorem get?_some_lt {α : Type} {l : List α} {n : ℕ} {a : α}
    (h : l.get? n = some a) : n < l.length := by
  by_contra hn
  rw [List.get?_eq_none.mpr (le_of_not_lt hn)] at h
  exact Option.noConfusion h

theorem covInv_congr (s1 s2 : CovState) (hp : s2.partnerIds = s1.partnerIds)
    (hc : s2.nodeCounts = s1.nodeCounts) (h : covInv s1) : covInv s2 := by
  rw [covInv, hp, hc]
  exact h

theorem covInv_push1 (st st' : CovState) (c : ℤ)
    (hp : st'.partnerIds = st.partnerIds ++ [UNINITIALIZED_COMP_ID])
    (hc : st'.nodeCounts = st.nodeCounts ++ [c]) (hinv : covInv st) :
    covInv st' := by
  obtain ⟨hlen, hsym⟩ := hinv
  constructor
  · rw [hp, hc]; simp [hlen]
  · intro i j hget hne
    rw [hp] at hget
    by_cases hi : i < st.partnerIds.length
    · rw [List.get?_append hi] at hget
      obtain ⟨h0, hback, hcnt, hsome⟩ := hsym i j hget hne
      have hjlt : j.toNat < st.partnerIds.length := get?_some_lt hback
      have hilt : i < st.nodeCounts.length := by
        rcases Option.isSome_iff_exists.mp hsome with ⟨v, hv⟩
        exact get?_some_lt hv
      have hjclt : j.toNat < st.nodeCounts.length := hlen ▸ hjlt
      refine ⟨h0, ?_, ?_, ?_⟩
      · rw [hp, List.get?_append hjlt]; exact hback
      · rw [hc, List.get?_append hilt, List.get?_append hjclt]; exact hcnt
      · rw [hc, List.get?_append hilt]; exact hsome
    · rcases Nat.lt_or_ge i (st.partnerIds.length + 1) with hi1 | hi2
      · have hieq : i = st.partnerIds.length := by omega
        subst hieq
        rw [List.get?_append_right (le_refl _), Nat.sub_self] at hget
        have : j = UNINITIALIZED_COMP_ID := by
          simpa using hget.symm
        exact absurd this hne
      · rw [List.get?_eq_none.mpr (by simp; omega)] at hget
        exact Option.noConfusion hget

theorem covInv_pushPair (st st' : CovState) (c : ℤ)
    (hp : st'.partnerIds = st.partnerIds ++
      [(st.partnerIds.length : ℤ) + 1, (st.partnerIds.length : ℤ)])
    (hc : st'.nodeCounts = st.nodeCounts ++ [c, c]) (hinv : covInv st) :
    covInv st' := by
  obtain ⟨hlen, hsym⟩ := hinv
  have hsub0 : st.partnerIds.length - st.partnerIds.length = 0 :=
    Nat.sub_self _
  have hsub1 : st.partnerIds.length + 1 - st.partnerIds.length = 1 := by
    omega
  have hcsub0 : st.partnerIds.length - st.nodeCounts.length = 0 := by
    omega
  have hcsub1 : st.partnerIds.length + 1 - st.nodeCounts.length = 1 := by
    omega
  constructor
  · rw [hp, hc]; simp [hlen]
  · intro i j hget hne
    rw [hp] at hget
    by_cases hi : i < st.partnerIds.length
    · rw [List.get?_append hi] at hget
      obtain ⟨h0, hback, hcnt, hsome⟩ := hsym i j hget hne
      have hjlt : j.toNat < st.partnerIds.length := get?_some_lt hback
      have hilt : i < st.nodeCounts.length := by
        rcases Option.isSome_iff_exists.mp hsome with ⟨v, hv⟩
        exact get?_some_lt hv
      have hjclt : j.toNat < st.nodeCounts.length := hlen ▸ hjlt
      refine ⟨h0, ?_, ?_, ?_⟩
      · rw [hp, List.get?_append hjlt]; exact hback
      · rw [hc, List.get?_append hilt, List.get?_append hjclt]; exact hcnt
      · rw [hc, List.get?_append hilt]; exact hsome
    · rcases Nat.lt_or_ge i (st.partnerIds.length + 1) with hi1 | hi2
      · -- the first arc of the new levee pair
        have hieq : i = st.partnerIds.length := by omega
        subst hieq
        rw [List.get?_append_right (le_refl _), Nat.sub_self] at hget
        have hj : j = (st.partnerIds.length : ℤ) + 1 := by
          simpa using hget.symm
        subst hj
        have htn : ((st.partnerIds.length : ℤ) + 1).toNat =
            st.partnerIds.length + 1 := by omega
        refine ⟨by omega, ?_, ?_, ?_⟩
        · rw [hp, htn,
            List.get?_append_right (by omega : st.partnerIds.length ≤
              st.partnerIds.length + 1), hsub1]
          rfl
        · rw [hc, htn,
            List.get?_append_right (by omega : st.nodeCounts.length ≤
              st.partnerIds.length),
            List.get?_append_right (by omega : st.nodeCounts.length ≤
              st.partnerIds.length + 1), hcsub0, hcsub1]
          rfl
        · rw [hc,
            List.get?_append_right (by omega : st.nodeCounts.length ≤
              st.partnerIds.length), hcsub0]
          rfl
      · rcases Nat.lt_or_ge i (st.partnerIds.length + 2) with hi3 | hi4
        · -- the second arc of the new levee pair
          have hieq : i = st.partnerIds.length + 1 := by omega
          subst hieq
          rw [List.get?_append_right (by omega), hsub1] at hget
          have hj : j = (st.partnerIds.length : ℤ) := by
            simpa using hget.symm
          subst hj
          have htn : ((st.partnerIds.length : ℤ)).toNat =
              st.partnerIds.length := by omega
          refine ⟨by omega, ?_, ?_, ?_⟩
          · rw [hp, htn, List.get?_append_right (le_refl _), Nat.sub_self]
            have hcast : ((st.partnerIds.length + 1 : ℕ) : ℤ) =
                (st.partnerIds.length : ℤ) + 1 := by push_cast; ring
            rw [hcast]
            rfl
          · rw [hc, htn,
              List.get?_append_right (by omega : st.nodeCounts.length ≤
                st.partnerIds.length + 1),
              List.get?_append_right (by omega : st.nodeCounts.length ≤
                st.partnerIds.length), hcsub0, hcsub1]
            rfl
          · rw [hc,
                List.get?_append_right (by omega : st.nodeCounts.length ≤
                  st.partnerIds.length + 1), hcsub1]
            rfl
        · rw [List.get?_eq_none.mpr (by simp; omega)] at hget
          exact Option.noConfusion hget

theorem readLeveeOutflow_fields (pm : PtMap) (n : ℕ) (st : CovState)
    (arcLines : List QLine) (st' : CovState)
    (h : readLeveeOutflow pm n st arcLines = some st') :
    st'.partnerIds = st.partnerIds ∧ st'.nodeCounts = st.nodeCounts := by
  rw [readLeveeOutflow] at h
  split at h
  · exact Option.noConfusion h
  · cases h; exact ⟨rfl, rfl⟩

theorem readLeveeAndPipe_fields (pm : PtMap) (n : ℕ) (st : CovState)
    (arcLines : List QLine) (st' : CovState)
    (h : readLeveeAndPipe pm n st arcLines = some st') :
    st'.partnerIds = st.partnerIds ∧ st'.nodeCounts = st.nodeCounts := by
  rw [readLeveeAndPipe] at h
  split at h
  · exact Option.noConfusion h
  · cases h; exact ⟨rfl, rfl⟩

theorem processSimpleEntry_inv (pm : PtMap) (st : CovState) (a : SimpleArc)
    (st' : CovState) (h : processSimpleEntry pm st a = some st')
    (hinv : covInv st) : covInv st' := by
  rw [processSimpleEntry] at h
  split at h
  · exact Option.noConfusion h
  · cases h
    exact covInv_push1 st _ a.count rfl rfl hinv

theorem processLandArc_inv (pm : PtMap) (st : CovState) (a : LandArc)
    (st' : CovState) (h : processLandArc pm st a = some st')
    (hinv : covInv st) : covInv st' := by
  rw [processLandArc] at h
  split at h
  · -- levee outflow
    obtain ⟨hp, hc⟩ := readLeveeOutflow_fields _ _ _ _ _ h
    exact covInv_congr _ _ hp hc (covInv_push1 st _ a.count rfl rfl hinv)
  · split at h
    · -- levee pair
      obtain ⟨hp, hc⟩ := readLeveeAndPipe_fields _ _ _ _ _ h
      exact covInv_congr _ _ hp hc (covInv_pushPair st _ a.count rfl rfl hinv)
    · -- simple land arc
      split at h
      · exact Option.noConfusion h
      · cases h
        exact covInv_push1 st _ a.count rfl rfl hinv

theorem processSimpleArcs_inv (pm : PtMap) (arcs : List SimpleArc) :
    ∀ (st st' : CovState), processSimpleArcs pm arcs st = some st' →
      covInv st → covInv st' := by
  induction arcs with
  | nil => intro st st' h hinv; rw [processSimpleArcs] at h; cases h; exact hinv
  | cons a rest ih =>
    intro st st' h hinv
    rw [processSimpleArcs] at h
    split at h
    · exact Option.noConfusion h
    · next st2 heq =>
      exact ih st2 st' h (processSimpleEntry_inv pm st a st2 heq hinv)

theorem processLandArcs_inv (pm : PtMap) (arcs : List LandArc) :
    ∀ (st st' : CovState), processLandArcs pm arcs st = some st' →
      covInv st → covInv st' := by
  induction arcs with
  | nil => intro st st' h hinv; rw [processLandArcs] at h; cases h; exact hinv
  | cons a rest ih =>
    intro st st' h hinv
    rw [processLandArcs] at h
    split at h
    · exact Option.noConfusion h
    · next st2 heq =>
      exact ih st2 st' h (processLandArc_inv pm st a st2 heq hinv)

/-- C9 (confirmed): in any successfully decoded coverage section, every arc
whose partner link is set — exactly the two arcs of a decoded levee pair —
is recorded with the same node count as its partner, and the partner links
resolve mutually: arc A's partner index resolves to arc B and arc B's
partner index back to arc A. -/
theorem c9_levee_pair_symmetry (pm : PtMap) (ocean : List SimpleArc)
    (land : List LandArc) (generic : List SimpleArc) (st : CovState)
    (h : readCoverages pm ocean land generic = some st) :
    ∀ (i : ℕ) (j : ℤ), st.partnerIds.get? i = some j →
      j ≠ UNINITIALIZED_COMP_ID →
      0 ≤ j ∧ st.partnerIds.get? j.toNat = some (i : ℤ) ∧
      st.nodeCounts.get? i = st.nodeCounts.get? j.toNat ∧
      (st.nodeCounts.get? i).isSome := by
  have hinit : covInv CovState.init := by
    constructor
    · rfl
    · intro i j hget _
      rw [show CovState.init.partnerIds = [] from rfl] at hget
      rw [List.get?_eq_none.mpr (by simp)] at hget
      exact Option.noConfusion hget
  rw [readCoverages] at h
  split at h
  · exact Option.noConfusion h
  · next st1 heq1 =>
    split at h
    · exact Option.noConfusion h
    · next st2 heq2 =>
      have h1 := processSimpleArcs_inv pm ocean _ _ heq1 hinit
      have h2 := processLandArcs_inv pm land _ _ heq2 h1
      have h3 := processSimpleArcs_inv pm generic _ _ h h2
      exact h3.2

/-- C9 (witness): a concrete coverage read with one ocean arc and one levee
pair (IBTYPE 24) over a 4-point map: the pair occupies arc slots 1 and 2
with node count 2 each and mutually symmetric partner links. -/
theorem c9_witness :
    readCoverages
        [(1, ((0, 0, 0), 0)), (2, ((1, 0, 0), 1)), (3, ((0, 1, 0), 2)),
         (4, ((1, 1, 0), 3))]
        [⟨2, [[1], [2]]⟩] [⟨2, 24, [[1, 3, 5, 1, 1], [2, 4, 5, 1, 1]]⟩] [] =
      some
        ⟨[0, 1, 1], [-1, 2, 1], [2, 2, 2], [0, 2, 4], [1, 2, 1, 2, 3, 4],
          ⟨[1, 2], [3, 4], [5, 5], [1, 1], [1, 1], [0, 0], [0, 0], [0, 0],
            [0, 0]⟩, 2⟩ ∧
    (0 ≤ (1 : ℤ) ∧
      (⟨[0, 1, 1], [-1, 2, 1], [2, 2, 2], [0, 2, 4], [1, 2, 1, 2, 3, 4],
          ⟨[1, 2], [3, 4], [5, 5], [1, 1], [1, 1], [0, 0], [0, 0], [0, 0],
            [0, 0]⟩, 2⟩ : CovState).partnerIds.get? (1 : ℤ).toNat =
        some ((2 : ℕ) : ℤ) ∧
      (⟨[0, 1, 1], [-1, 2, 1], [2, 2, 2], [0, 2, 4], [1, 2, 1, 2, 3, 4],
          ⟨[1, 2], [3, 4], [5, 5], [1, 1], [1, 1], [0, 0], [0, 0], [0, 0],
            [0, 0]⟩, 2⟩ : CovState).nodeCounts.get? 2 =
        (⟨[0, 1, 1], [-1, 2, 1], [2, 2, 2], [0, 2, 4], [1, 2, 1, 2, 3, 4],
          ⟨[1, 2], [3, 4], [5, 5], [1, 1], [1, 1], [0, 0], [0, 0], [0, 0],
            [0, 0]⟩, 2⟩ : CovState).nodeCounts.get? (1 : ℤ).toNat ∧
      ((⟨[0, 1, 1], [-1, 2, 1], [2, 2, 2], [0, 2, 4], [1, 2, 1, 2, 3, 4],
          ⟨[1, 2], [3, 4], [5, 5], [1, 1], [1, 1], [0, 0], [0, 0], [0, 0],
            [0, 0]⟩, 2⟩ : CovState).nodeCounts.get? 2).isSome) := by
  have hread : readCoverages
      [(1, ((0, 0, 0), 0)), (2, ((1, 0, 0), 1)), (3, ((0, 1, 0), 2)),
       (4, ((1, 1, 0), 3))]
      [⟨2, [[1], [2]]⟩] [⟨2, 24, [[1, 3, 5, 1, 1], [2, 4, 5, 1, 1]]⟩] [] =
      some
        ⟨[0, 1, 1], [-1, 2, 1], [2, 2, 2], [0, 2, 4], [1, 2, 1, 2, 3, 4],
          ⟨[1, 2], [3, 4], [5, 5], [1, 1], [1, 1], [0, 0], [0, 0], [0, 0],
            [0, 0]⟩, 2⟩ := by decide
  exact ⟨hread, c9_levee_pair_symmetry _ _ _ _ _ hread 2 1 (by decide)
    (by decide)⟩

/-! ## C4: resolved nodal-attribute values -/

theorem setComponents_spec (nodeIdx : ℤ) (numNodes : ℕ) (line : F13Line)
    (h0 : 0 ≤ nodeIdx) (h1 : nodeIdx < (numNodes : ℤ)) :
    ∀ (vs : List ℚ) (dvPre dvSuf : List (List ℚ)),
      (∀ m : ℕ, line.get? (dvPre.length + 1 + m) = (vs.get? m).map Tok.num) →
      dvSuf.length = vs.length →
      (∀ row ∈ dvSuf, row.length = numNodes) →
      setComponents nodeIdx line dvPre.length vs.length (dvPre ++ dvSuf) =
        some (dvPre ++
          List.zipWith (fun row v => row.set nodeIdx.toNat v) dvSuf vs) := by
  intro vs
  induction vs with
  | nil =>
    intro dvPre dvSuf _ hlen _
    rw [List.length_eq_zero.mp hlen]
    simp [setComponents]
  | cons v vs ih =>
    intro dvPre dvSuf hline hlen hrows
    rcases dvSuf with _ | ⟨row, dvSuf'⟩
    · exact absurd hlen (by simp)
    · rw [List.length_cons, setComponents]
      have hl0 : line.get? (dvPre.length + 1) = some (Tok.num v) := by
        have := hline 0
        rw [Nat.add_zero] at this
        simpa using this
      rw [hl0]
      dsimp only
      rw [show tokFloat? (Tok.num v) = some v from rfl]
      dsimp only
      have hget : (dvPre ++ row :: dvSuf').get? dvPre.length = some row := by
        rw [List.get?_append_right (le_refl _), Nat.sub_self]
        rfl
      rw [hget]
      dsimp only
      have hrow : row.length = numNodes := hrows row (List.mem_cons_self _ _)
      rw [pySet_of_nonneg v h0 (by rw [hrow]; exact h1)]
      dsimp only
      have hset : (dvPre ++ row :: dvSuf').set dvPre.length
          (row.set nodeIdx.toNat v) =
          (dvPre ++ [row.set nodeIdx.toNat v]) ++ dvSuf' := by
        rw [List.set_append]
        simp
      rw [hset]
      have := ih (dvPre ++ [row.set nodeIdx.toNat v]) dvSuf'
        (by
          intro m
          rw [List.length_append, List.length_singleton]
          have := hline (m + 1)
          rw [show dvPre.length + 1 + (m + 1) =
            dvPre.length + 1 + 1 + m by omega] at this
          exact this)
        (by simpa using hlen)
        (fun r hr => hrows r (List.mem_cons_of_mem _ hr))
      rw [List.length_append, List.length_singleton] at this
      rw [this]
      rw [List.zipWith_cons_cons, List.append_assoc, List.singleton_append]

theorem applyExc_length (dv : List (List ℚ)) (e : ℤ × List ℚ)
    (hlen : e.2.length = dv.length) : (applyExc dv e).length = dv.length := by
  rw [applyExc, List.length_zipWith, hlen, min_self]

theorem applyExc_row_length (numNodes : ℕ) (dv : List (List ℚ))
    (e : ℤ × List ℚ) (hrows : ∀ row ∈ dv, row.length = numNodes) :
    ∀ row ∈ applyExc dv e, row.length = numNodes := by
  intro row hrow
  rw [applyExc] at hrow
  obtain ⟨n, hn⟩ := List.mem_iff_get?.mp hrow
  obtain ⟨x, y, hx, _, hxy⟩ :=
    (List.get?_zipWith_eq_some _ _ _ _ _).mp hn
  rw [← hxy, List.length_set]
  exact hrows x (List.get?_mem hx)

theorem applyExc_get? (dv : List (List ℚ)) (e : ℤ × List ℚ) (k : ℕ)
    (row : List ℚ) (hk : dv.get? k = some row) (v : ℚ)
    (hv : e.2.get? k = some v) :
    (applyExc dv e).get? k = some (row.set (e.1 - 1).toNat v) := by
  rw [applyExc, List.get?_zipWith', hk, hv]
  rfl

theorem applyExcs_props (numNodes : ℕ) (excs : List (ℤ × List ℚ)) :
    ∀ (dv : List (List ℚ)) (k : ℕ) (row : List ℚ),
      (∀ r ∈ dv, r.length = numNodes) →
      (∀ e ∈ excs, 1 ≤ e.1 ∧ e.1 ≤ (numNodes : ℤ) ∧
        e.2.length = dv.length) →
      (excs.map Prod.fst).Nodup →
      dv.get? k = some row →
      ∃ row', (applyExcs dv excs).get? k = some row' ∧
        row'.length = row.length ∧
        (∀ e ∈ excs, ∀ v, e.2.get? k = some v →
          row'.get? (e.1 - 1).toNat = some v) ∧
        (∀ i : ℕ, (∀ e ∈ excs, e.1 ≠ (i : ℤ) + 1) →
          row'.get? i = row.get? i) := by
  induction excs with
  | nil =>
    intro dv k row _ _ _ hk
    exact ⟨row, hk, rfl, by simp, fun i _ => rfl⟩
  | cons e es ih =>
    intro dv k row hrows hbnd hnodup hk
    rw [List.map_cons, List.nodup_cons] at hnodup
    obtain ⟨he1, he2, helen⟩ := hbnd e (List.mem_cons_self _ _)
    have hklt : k < dv.length := get?_some_lt hk
    have hkv : ∃ v, e.2.get? k = some v := by
      rcases hv : e.2.get? k with _ | v
      · rw [List.get?_eq_none] at hv; omega
      · exact ⟨v, rfl⟩
    obtain ⟨v0, hv0⟩ := hkv
    have hrowlen : row.length = numNodes := hrows row (List.get?_mem hk)
    have hstep := applyExc_get? dv e k row hk v0 hv0
    have hrec := ih (applyExc dv e) k (row.set (e.1 - 1).toNat v0)
      (applyExc_row_length numNodes dv e hrows)
      (by
        intro e' he'
        obtain ⟨a, b, c⟩ := hbnd e' (List.mem_cons_of_mem _ he')
        exact ⟨a, b, by rw [applyExc_length dv e helen]; exact c⟩)
      hnodup.2 hstep
    obtain ⟨row', hrow', hlen', hmem', hunt'⟩ := hrec
    refine ⟨row', hrow', by rw [hlen', List.length_set], ?_, ?_⟩
    · intro e' he' v hv
      rcases List.mem_cons.mp he' with rfl | hin
      · have hveq : v0 = v := by rw [hv0] at hv; exact Option.some_inj.mp hv
        subst hveq
        rw [hunt' (e'.1 - 1).toNat
          (by
            intro e2 he2 hc
            apply hnodup.1
            have : e2.1 = e'.1 := by omega
            exact this ▸ List.mem_map_of_mem Prod.fst he2)]
        rw [List.get?_eq_getElem?,
          List.getElem?_set_eq_of_lt v0 (by rw [hrowlen]; omega)]
      · exact hmem' e' hin v hv
    · intro i hi
      rw [hunt' i (fun e2 he2 => hi e2 (List.mem_cons_of_mem _ he2))]
      have hne : (e.1 - 1).toNat ≠ i := by
        have := hi e (List.mem_cons_self _ _)
        omega
      rw [List.get?_eq_getElem?, List.get?_eq_getElem?,
        List.getElem?_set_ne hne]

theorem readExceptions_spec (numNodes : ℕ) (excs : List (ℤ × List ℚ)) :
    ∀ (dv : List (List ℚ)) (rest : List F13Line),
      (∀ row ∈ dv, row.length = numNodes) →
      (∀ e ∈ excs, 1 ≤ e.1 ∧ e.1 ≤ (numNodes : ℤ) ∧
        e.2.length = dv.length) →
      readExceptions dv.length excs.length dv (excs.map mkExcLine ++ rest) =
        some (applyExcs dv excs, rest) := by
  induction excs with
  | nil =>
    intro dv rest _ _
    simp [readExceptions, applyExcs]
  | cons e es ih =>
    intro dv rest hrows hbnd
    obtain ⟨he1, he2, helen⟩ := hbnd e (List.mem_cons_self _ _)
    rw [List.map_cons, List.cons_append, List.length_cons, readExceptions,
      readline]
    dsimp only
    have hg0 : (mkExcLine e).get? 0 = some (Tok.num ((e.1 : ℚ))) := rfl
    rw [hg0]
    dsimp only
    rw [show tokInt? (Tok.num ((e.1 : ℚ))) = some e.1 from by
      rw [tokInt?, pyInt_intCast]]
    dsimp only
    have hsc := setComponents_spec (e.1 - 1) numNodes (mkExcLine e)
      (by omega) (by omega) e.2 [] dv
      (by
        intro m
        rw [List.length_nil]
        show (mkExcLine e).get? (1 + m) = (e.2.get? m).map Tok.num
        rw [show (1 : ℕ) + m = m + 1 by omega]
        rw [mkExcLine]
        rw [List.get?]
        exact List.get?_map Tok.num e.2 m)
      (by rw [helen]) hrows
    rw [List.length_nil, List.nil_append, helen] at hsc
    rw [hsc]
    dsimp only
    rw [List.nil_append]
    have hlen2 : (List.zipWith (fun row v => row.set (e.1 - 1).toNat v) dv
        e.2).length = dv.length := by
      rw [List.length_zipWith, helen, min_self]
    have := ih (applyExc dv e) rest
      (applyExc_row_length numNodes dv e hrows)
      (by
        intro e' he'
        obtain ⟨a, b, c⟩ := hbnd e' (List.mem_cons_of_mem _ he')
        exact ⟨a, b, by rw [applyExc_length dv e helen]; exact c⟩)
    rw [applyExc_length dv e helen] at this
    rw [show List.zipWith (fun row v => row.set (e.1 - 1).toNat v) dv e.2 =
      applyExc dv e from rfl]
    rw [this]
    rfl

theorem addDatasetsLoop_spec (names : List String) (hnodup : names.Nodup) :
    ∀ (dvs : List (List ℚ)) (j : ℕ) (ds : List (String × List ℚ)),
      j + dvs.length ≤ names.length →
      ∃ ds', addDatasetsLoop names j dvs ds = some ds' ∧
        (∀ (k : ℕ) (nm : String) (v : List ℚ), k < dvs.length →
          names.get? (j + k) = some nm → dvs.get? k = some v →
          pyDictGet? nm ds' = some v) ∧
        (∀ nm : String, (∀ m : ℕ, m < dvs.length →
            names.get? (j + m) ≠ some nm) →
          pyDictGet? nm ds' = pyDictGet? nm ds) := by
  intro dvs
  induction dvs with
  | nil =>
    intro j ds _
    exact ⟨ds, rfl, by simp, fun _ _ => rfl⟩
  | cons v vs ih =>
    intro j ds hle
    rw [List.length_cons] at hle
    have hj : j < names.length := by omega
    have hnm0 : ∃ nm0, names.get? j = some nm0 := by
      rcases hx : names.get? j with _ | nm0
      · rw [List.get?_eq_none] at hx; omega
      · exact ⟨nm0, rfl⟩
    obtain ⟨nm0, hnm0⟩ := hnm0
    rw [addDatasetsLoop, hnm0]
    dsimp only
    obtain ⟨ds', hrun, hins, hpres⟩ := ih (j + 1) (pyDictSet nm0 v ds)
      (by omega)
    have hfresh : ∀ m : ℕ, m < vs.length →
        names.get? (j + 1 + m) ≠ some nm0 := by
      intro m hm hc
      have := List.get?_inj (by omega) hnodup (hc.trans hnm0.symm)
      omega
    refine ⟨ds', hrun, ?_, ?_⟩
    · intro k nm w hk hname hval
      rcases k with _ | k
      · rw [Nat.add_zero, hnm0] at hname
        have hn : nm = nm0 := by simpa using hname.symm
        have hv : w = v := by simpa using hval.symm
        subst hn
        subst hv
        rw [hpres nm hfresh]
        exact pyDictGet?_set_self nm w ds
      · rw [List.length_cons] at hk
        exact hins k nm w (by omega)
          (by rw [show j + (k + 1) = j + 1 + k by omega] at hname
              exact hname) hval
    · intro nm hnm
      rw [hpres nm (by
        intro m hm
        have := hnm (m + 1) (by rw [List.length_cons]; omega)
        rw [show j + (m + 1) = j + 1 + m by omega] at this
        exact this)]
      rw [pyDictGet?_set_ne v ds (by
        intro hc
        exact hnm 0 (by rw [List.length_cons]; omega)
          (by rw [Nat.add_zero, hnm0, hc]))]

theorem applyExcs_length (excs : List (ℤ × List ℚ)) :
    ∀ dv : List (List ℚ), (∀ e ∈ excs, e.2.length = dv.length) →
      (applyExcs dv excs).length = dv.length := by
  induction excs with
  | nil => intro dv _; rfl
  | cons e es ih =>
    intro dv hlen
    have he := hlen e (List.mem_cons_self _ _)
    rw [show applyExcs dv (e :: es) = applyExcs (applyExc dv e) es from rfl]
    rw [ih (applyExc dv e)
      (by
        intro e' he'
        rw [applyExc_length dv e he]
        exact hlen e' (List.mem_cons_of_mem _ he'))]
    exact applyExc_length dv e he

/-- C4 (confirmed): for every well-formed nodal-attribute value block of a
non-geoid attribute, each component's resolved per-node array has length
equal to the node count, each exception record's value lands at the 0-based
index `node_id - 1` of every component, and every unlisted node keeps the
component's declared default; and the end-to-end scenario: a fort.13 file
declaring `bottom_roughness_length` with default `[0.025]` and one exception
`(node 5, value 0.05)` over 10 nodes yields exactly one dataset, named
`Z0b_var`, with 0.05 at index 4 and 0.025 elsewhere. -/
theorem c4_resolved_values :
    (∀ (numNodes : ℕ) (defs : List (String × List ℚ)) (st : F13State)
      (attName : String) (defaults : List ℚ) (excs : List (ℤ × List ℚ))
      (rest : List F13Line) (names : List String),
      pyDictGet? attName defs = some defaults →
      attName ≠ "sea_surface_height_above_geoid" →
      names = resolvedDisplayNames attName defaults.length →
      names.length = defaults.length →
      names.Nodup →
      (∀ e ∈ excs, 1 ≤ e.1 ∧ e.1 ≤ (numNodes : ℤ) ∧
        e.2.length = defaults.length) →
      (excs.map Prod.fst).Nodup →
      ∃ st2, readAttValuesOne numNodes defs st
          (mkAttValueBlock attName excs ++ rest) = some (st2, rest) ∧
        st2.nodalAtts = st.nodalAtts ∧
        (∀ (k : ℕ) (nm : String) (d : ℚ),
          names.get? k = some nm → defaults.get? k = some d →
          ∃ vals, pyDictGet? nm st2.datasets = some vals ∧
            vals.length = numNodes ∧
            (∀ e ∈ excs, ∀ v, e.2.get? k = some v →
              vals.get? (e.1 - 1).toNat = some v) ∧
            (∀ i : ℕ, i < numNodes → (∀ e ∈ excs, e.1 ≠ (i : ℤ) + 1) →
              vals.get? i = some d))) ∧
    fort13Read true
        [[Tok.word "grid"], [Tok.num 10], [Tok.num 1],
         [Tok.word "bottom_roughness_length"], [Tok.word "m"], [Tok.num 1],
         [Tok.num (⟨1, 40, by decide, by decide⟩ : ℚ)],
         [Tok.word "bottom_roughness_length"], [Tok.num 1],
         [Tok.num 5, Tok.num (⟨1, 20, by decide, by decide⟩ : ℚ)]] 10 =
      Except.ok
        ⟨[("Z0b_var",
           [(⟨1, 40, by decide, by decide⟩ : ℚ),
            (⟨1, 40, by decide, by decide⟩ : ℚ),
            (⟨1, 40, by decide, by decide⟩ : ℚ),
            (⟨1, 40, by decide, by decide⟩ : ℚ),
            (⟨1, 20, by decide, by decide⟩ : ℚ),
            (⟨1, 40, by decide, by decide⟩ : ℚ),
            (⟨1, 40, by decide, by decide⟩ : ℚ),
            (⟨1, 40, by decide, by decide⟩ : ℚ),
            (⟨1, 40, by decide, by decide⟩ : ℚ),
            (⟨1, 40, by decide, by decide⟩ : ℚ)])], []⟩ := by
  constructor
  · intro numNodes defs st attName defaults excs rest names hdefs hgeoid
      hnames hnameslen hnodupN hexcs hnodupE
    have hdvlen : (defaults.map
        (fun d => List.replicate numNodes d)).length = defaults.length :=
      List.length_map _ _
    have hdvrows : ∀ row ∈ defaults.map (fun d => List.replicate numNodes d),
        row.length = numNodes := by
      intro row hrow
      obtain ⟨d, _, rfl⟩ := List.mem_map.mp hrow
      exact List.length_replicate numNodes d
    have hexcs2 : ∀ e ∈ excs, 1 ≤ e.1 ∧ e.1 ≤ (numNodes : ℤ) ∧
        e.2.length = (defaults.map (fun d => List.replicate numNodes d)).length := by
      intro e he
      obtain ⟨a, b, c⟩ := hexcs e he
      exact ⟨a, b, by rw [hdvlen]; exact c⟩
    rw [readAttValuesOne]
    rw [show mkAttValueBlock attName excs ++ rest =
      [Tok.word attName] :: ([Tok.num ((excs.length : ℕ) : ℚ)] ::
        (excs.map mkExcLine ++ rest)) from rfl]
    rw [skipBlanks]
    rw [if_neg (by simp)]
    dsimp only
    rw [show ([Tok.word attName] : F13Line).get? 0 =
      some (Tok.word attName) from rfl]
    dsimp only
    rw [show tokStr (Tok.word attName) = attName from rfl]
    rw [hdefs]
    dsimp only
    rw [readline]
    dsimp only
    rw [show ([Tok.num ((excs.length : ℕ) : ℚ)] : F13Line).get? 0 =
      some (Tok.num ((excs.length : ℕ) : ℚ)) from rfl]
    dsimp only
    rw [show tokInt? (Tok.num ((excs.length : ℕ) : ℚ)) =
      some ((excs.length : ℕ) : ℤ) from by rw [tokInt?, pyInt_natCast]]
    dsimp only
    rw [Int.toNat_natCast]
    have hre := readExceptions_spec numNodes excs
      (defaults.map (fun d => List.replicate numNodes d)) rest hdvrows hexcs2
    rw [hdvlen] at hre
    rw [hre]
    dsimp only
    rw [if_neg hgeoid]
    rw [show (if getDsetDisplayNames attName = [] then
        synthDisplayNames attName defaults.length
      else getDsetDisplayNames attName) = names from by
      rw [hnames]; rfl]
    have hdvslen : (applyExcs
        (defaults.map (fun d => List.replicate numNodes d)) excs).length =
        defaults.length := by
      rw [applyExcs_length excs _ (fun e he => (hexcs2 e he).2.2), hdvlen]
    obtain ⟨ds', hrun, hins, _⟩ := addDatasetsLoop_spec names hnodupN
      (applyExcs (defaults.map (fun d => List.replicate numNodes d)) excs)
      0 st.datasets (by rw [hdvslen, hnameslen]; omega)
    rw [hrun]
    dsimp only
    refine ⟨_, rfl, rfl, ?_⟩
    intro k nm d hnm hd
    have hklt : k < defaults.length := get?_some_lt hd
    have hdv0 : (defaults.map (fun d => List.replicate numNodes d)).get? k =
        some (List.replicate numNodes d) := by
      rw [List.get?_map, hd, Option.map_some']
    obtain ⟨row', hrow', hlen', hmem', hunt'⟩ := applyExcs_props numNodes
      excs (defaults.map (fun d => List.replicate numNodes d)) k
      (List.replicate numNodes d) hdvrows hexcs2 hnodupE hdv0
    refine ⟨row', ?_, ?_, hmem', ?_⟩
    · exact hins k nm row' (by rw [hdvslen]; exact hklt)
        (by rw [Nat.zero_add]; exact hnm) hrow'
    · rw [hlen', List.length_replicate]
    · intro i hi hunt
      rw [hunt' i hunt, List.get?_eq_getElem?, List.getElem?_replicate,
        if_pos hi]
  · decide

/-- C4 (witness): the general part applied to scenario B's attribute block —
`bottom_roughness_length`, default 0.025, single exception at node 5 with
value 0.05 over 10 nodes, resolved under display name `Z0b_var`. -/
theorem c4_witness :
    ∃ st2, readAttValuesOne 10
        [("bottom_roughness_length", [(⟨1, 40, by decide, by decide⟩ : ℚ)])]
        ⟨[], []⟩
        (mkAttValueBlock "bottom_roughness_length"
          [((5 : ℤ), [(⟨1, 20, by decide, by decide⟩ : ℚ)])] ++ []) =
      some (st2, []) ∧
      ∃ vals, pyDictGet? "Z0b_var" st2.datasets = some vals ∧
        vals.length = 10 ∧
        vals.get? 4 = some (⟨1, 20, by decide, by decide⟩ : ℚ) ∧
        vals.get? 0 = some (⟨1, 40, by decide, by decide⟩ : ℚ) := by
  obtain ⟨st2, hrun, _, hk⟩ := c4_resolved_values.1 10
    [("bottom_roughness_length", [(⟨1, 40, by decide, by decide⟩ : ℚ)])]
    ⟨[], []⟩ "bottom_roughness_length"
    [(⟨1, 40, by decide, by decide⟩ : ℚ)]
    [((5 : ℤ), [(⟨1, 20, by decide, by decide⟩ : ℚ)])] [] ["Z0b_var"]
    (by decide) (by decide) (by decide) (by decide) (by decide)
    (by decide) (by decide)
  obtain ⟨vals, hget, hlen, hmem, hunt⟩ := hk 0 "Z0b_var"
    (⟨1, 40, by decide, by decide⟩ : ℚ) (by decide) (by decide)
  refine ⟨st2, hrun, vals, hget, hlen, ?_, ?_⟩
  · simpa using hmem ((5 : ℤ), [(⟨1, 20, by decide, by decide⟩ : ℚ)])
      (List.mem_cons_self _ _) (⟨1, 20, by decide, by decide⟩ : ℚ) (by decide)
  · exact hunt 0 (by omega) (by decide)

end XmsAdcirc
